import Mathlib

/-!
Shallow embedding of the vdsm-ci repository's two Python source files:

* `src/provision-dsm.py`, function `handle_post_wizard` — the post-wizard
  screen-dismissal loop (screen catalog, seen-set, idle counter, absolute
  timeout, per-screen try/except control flow);
* `src/scripts/scrape-dsm-version.py` — the DSM version scraper
  (series selection, regex extraction, output/file effects of `main`).

The browser page is abstracted as an environment `Env` that answers, per loop
iteration and per catalog index, the outcome of each Playwright call the loop
body makes for that screen: the `is_visible()` detection query, the optional
custom action, the button wait-and-click, the wait-for-hidden, and the
wait-for-networkidle.  An outcome distinguishes success, a
`PlaywrightTimeoutError` (caught by the loop's first `except` clause), and any
other exception (caught by the second, re-raising `except` clause), mirroring
the exception structure of the Python `try` block.  Wall-clock time is
abstracted as `Env.elapsed`, the value of `time.time() - start_time` observed
at the top of each iteration.  The unbounded `while True:` is given fuel.
-/

/-- One entry of the `wizard_screens` catalog in `handle_post_wizard`:
`name`, the `identifier` locator, whether an `"action"` key is present, and
the optional `"button"` locator. -/
structure Screen where
  name : String
  identifier : String
  action : Bool
  button : Option String
deriving DecidableEq, Repr

/-- The `wizard_screens` list of `handle_post_wizard`, verbatim from the
source (the two custom action functions are represented by `action := true`). -/
def wizard_screens : List Screen := [
  { name := "Update Options",
    identifier := "div.welcome-step-title >> text=/Select an update option/",
    action := true,
    button := some "button.v-btn-main" },
  { name := "Synology Account",
    identifier := "div.welcome-step-title >> text=/Create a Synology Account/",
    action := false,
    button := some "button[syno-id='welcome-app-wizard-fbar-back']" },
  { name := "User Experience",
    identifier := "div.welcome-step-title >> text=/Opt-in for a better user experience/",
    action := false,
    button := some "button[syno-id='welcome-app-wizard-fbar-next']" },
  { name := "File Access Promotion",
    identifier := "div.title >> text=/Securely Access and Share Files From Anywhere/",
    action := false,
    button := some "button[syno-id='syno-promotion-preinstall-btn-skip']" },
  { name := "2FA Promotion",
    identifier := "div.title >> text=/Enable 2-Factor Authentication \\(2FA\\)/",
    action := false,
    button := some "button[syno-id='syno-promotion-ss-btn-skip']" },
  { name := "Adaptive MFA Promotion",
    identifier := "div.title >> text=/Protect your account with Adaptive MFA/",
    action := false,
    button := some "button[syno-id='syno-promotion-manually-amfa-btn-give-up']" },
  { name := "MFA Warning Confirmation",
    identifier := "div.dialog-content >> text=/We strongly recommend enabling 2FA or Adaptive MFA/",
    action := false,
    button := some "button[syno-id='promotion-app-window-msgbox-fbar-commit']" },
  { name := "Notification Setup",
    identifier := "div.v-notification-title >> text=/Notification Setup/",
    action := true,
    button := none },
  { name := "Notification Setup Reminder",
    identifier := "div.dialog-content >> text=/You can enable notifications later/",
    button := some "button[syno-id='window-manager-msg-box-fbar-commit']",
    action := false }
]

/-- `all_screen_names = {screen["name"] for screen in wizard_screens}`,
generalized over the catalog. -/
def all_screen_names (cat : List Screen) : Finset String :=
  (cat.map Screen.name).toFinset

/-- Outcome of one awaited Playwright call inside the loop body: it returns
normally, raises `PlaywrightTimeoutError`, or raises some other exception. -/
inductive StepOutcome
  | ok
  | timeoutErr
  | otherErr
deriving DecidableEq, Repr

/-- Outcome of the `identifier.is_visible()` detection query: the screen is
visible, not visible, or the query raised (`PlaywrightTimeoutError` or other). -/
inductive DetectOutcome
  | visible
  | notVisible
  | timeoutErr
  | otherErr
deriving DecidableEq, Repr

/-- The environment's responses for one catalog entry in one iteration:
outcomes of detection, of the custom action, of the button wait-and-click, of
the wait-for-hidden, and of the wait-for-networkidle. -/
structure EnvResp where
  detect : DetectOutcome
  act : StepOutcome
  button : StepOutcome
  hidden : StepOutcome
  settle : StepOutcome
deriving DecidableEq, Repr

/-- Abstract page/clock environment: `resp t i` answers iteration `t`'s
queries for catalog index `i`; `elapsed t` is `time.time() - start_time` at
the top of iteration `t` (in whole seconds). -/
structure Env where
  resp : Nat → Nat → EnvResp
  elapsed : Nat → Nat

/-- Observable events of a loop execution, tagged with the screen name:
`mark` is `screens_seen.add`, `act` is invoking the custom action, `click` is
the successful button wait-and-click, and `dismissed` marks a fully handled
screen (the loop body reached its `break`). -/
inductive Event
  | mark (name : String)
  | act (name : String)
  | click (name : String)
  | dismissed (name : String)
deriving DecidableEq, Repr

/-- The screen name carried by an event. -/
def Event.name : Event → String
  | .mark n => n
  | .act n => n
  | .click n => n
  | .dismissed n => n

/-- Result of running the loop body for one matched (visible, unseen)
screen, past the `screens_seen.add`: it either completes all steps and
reaches the `break`, raises `PlaywrightTimeoutError` (so the `for` loop
continues with the next entry), or raises another exception (fatal). -/
inductive HandleResult
  | completed (events : List Event)
  | timedOut (events : List Event)
  | fatal (events : List Event)
deriving DecidableEq, Repr

/-- `await page.wait_for_load_state("networkidle", timeout=30_000)` followed
by the `break`: the last stage of handling a matched screen. -/
def settleStage (sc : Screen) (r : EnvResp) (evs : List Event) : HandleResult :=
  match r.settle with
  | .ok => .completed (evs ++ [Event.dismissed sc.name])
  | .timeoutErr => .timedOut evs
  | .otherErr => .fatal evs

/-- `await identifier.wait_for(state="hidden", timeout=30_000)`. -/
def hiddenStage (sc : Screen) (r : EnvResp) (evs : List Event) : HandleResult :=
  match r.hidden with
  | .ok => settleStage sc r evs
  | .timeoutErr => .timedOut evs
  | .otherErr => .fatal evs

/-- `if "button" in screen:` wait for the button to be visible (10s) and
click it; a click only happens when the wait-and-click succeeds. -/
def buttonStage (sc : Screen) (r : EnvResp) (evs : List Event) : HandleResult :=
  match sc.button with
  | some _ =>
    match r.button with
    | .ok => hiddenStage sc r (evs ++ [Event.click sc.name])
    | .timeoutErr => .timedOut evs
    | .otherErr => .fatal evs
  | none => hiddenStage sc r evs

/-- The loop body for a matched screen after `screens_seen.add(screen_name)`:
optional custom action, optional button, wait-for-hidden, settle, `break`. -/
def handle (sc : Screen) (r : EnvResp) : HandleResult :=
  if sc.action then
    match r.act with
    | .ok => buttonStage sc r [Event.act sc.name]
    | .timeoutErr => .timedOut [Event.act sc.name]
    | .otherErr => .fatal [Event.act sc.name]
  else buttonStage sc r []

/-- Result of the `for screen in wizard_screens:` scan of one iteration:
either a non-timeout exception propagated out of the loop (with the screen
name printed by the fatal handler, the seen-set and `screen_found` at that
point, and the events so far), or the scan ended (by `break` or by list
exhaustion) with the updated seen-set, the final `screen_found`, and events. -/
inductive ScanResult
  | fatal (name : String) (seen : Finset String) (found : Bool) (events : List Event)
  | done (seen : Finset String) (found : Bool) (events : List Event)
deriving DecidableEq

/-- Prepend already-emitted events to a scan result. -/
def ScanResult.addEvents (pre : List Event) : ScanResult → ScanResult
  | .fatal n s f es => .fatal n s f (pre ++ es)
  | .done s f es => .done s f (pre ++ es)

/-- The catalog scan of one loop iteration, from catalog index `i` over the
remaining entries `screens`, threading `screens_seen` and `screen_found`.
Detection raising `PlaywrightTimeoutError` is caught and the scan continues
(`except PlaywrightTimeoutError: continue`); any other detection exception is
fatal.  A visible screen whose name is already in the seen-set just sets
`screen_found` and continues.  Otherwise the name is added to the seen-set
first, then the entry is handled: a completed handling is the `break`, a
timed-out handling continues with the next entry, any other exception is
fatal. -/
def scanFrom (env : Env) (t : Nat) : Nat → List Screen → Finset String → Bool → ScanResult
  | _, [], seen, found => .done seen found []
  | i, sc :: rest, seen, found =>
    match (env.resp t i).detect with
    | .notVisible => scanFrom env t (i + 1) rest seen found
    | .timeoutErr => scanFrom env t (i + 1) rest seen found
    | .otherErr => .fatal sc.name seen found []
    | .visible =>
      if sc.name ∈ seen then
        scanFrom env t (i + 1) rest seen true
      else
        match handle sc (env.resp t i) with
        | .completed evs => .done (insert sc.name seen) true (Event.mark sc.name :: evs)
        | .fatal evs => .fatal sc.name (insert sc.name seen) true (Event.mark sc.name :: evs)
        | .timedOut evs =>
          (scanFrom env t (i + 1) rest (insert sc.name seen) true).addEvents
            (Event.mark sc.name :: evs)

/-- Log of one executed loop iteration: the seen-set and the
`consecutive_no_match` counter at the top of the iteration, the final
`screen_found` of its scan, and the events emitted by its scan. -/
structure IterLog where
  seenBefore : Finset String
  consecBefore : Nat
  found : Bool
  events : List Event
deriving DecidableEq

/-- How the loop ended. -/
inductive ExitKind
  | fullCoverage
  | idleConvergence
  | convergenceTimeout (unseen : Finset String)
  | fatalError (screen : String)
  | outOfFuel
deriving DecidableEq

/-- Final state of a loop run: exit kind, final seen-set, and the per-iteration
logs of every iteration whose scan ran. -/
structure LoopResult where
  exit : ExitKind
  seen : Finset String
  trace : List IterLog
deriving DecidableEq

/-- `timeout_seconds = 300`. -/
def timeout_seconds : Nat := 300

/-- The idle threshold: `consecutive_no_match >= 30`. -/
def idle_threshold : Nat := 30

/-- The `while True:` loop of `handle_post_wizard`, with fuel.  Each
iteration: the absolute-timeout check first (raising `TimeoutError` with the
unseen names), then the full-coverage check, then the catalog scan; if the
scan found no screen the idle counter is incremented and the loop breaks
successfully at the threshold, otherwise the counter resets to 0. -/
def runLoop (cat : List Screen) (env : Env) : Nat → Nat → Finset String → Nat → LoopResult
  | 0, _, seen, _ => ⟨.outOfFuel, seen, []⟩
  | fuel + 1, t, seen, c =>
    if env.elapsed t > timeout_seconds then
      ⟨.convergenceTimeout (all_screen_names cat \ seen), seen, []⟩
    else if seen = all_screen_names cat then
      ⟨.fullCoverage, seen, []⟩
    else
      match scanFrom env t 0 cat seen false with
      | .fatal n seen' found evs => ⟨.fatalError n, seen', [⟨seen, c, found, evs⟩]⟩
      | .done seen' found evs =>
        if found then
          let r := runLoop cat env fuel (t + 1) seen' 0
          ⟨r.exit, r.seen, ⟨seen, c, found, evs⟩ :: r.trace⟩
        else if c + 1 ≥ idle_threshold then
          ⟨.idleConvergence, seen', [⟨seen, c, found, evs⟩]⟩
        else
          let r := runLoop cat env fuel (t + 1) seen' (c + 1)
          ⟨r.exit, r.seen, ⟨seen, c, found, evs⟩ :: r.trace⟩

/-- `handle_post_wizard`'s loop entry: the fixed catalog, empty seen-set,
iteration 0, idle counter 0. -/
def handle_post_wizard (env : Env) (fuel : Nat) : LoopResult :=
  runLoop wizard_screens env fuel 0 ∅ 0

/-- All events of a run, iteration logs concatenated in order. -/
def LoopResult.allEvents (r : LoopResult) : List Event :=
  (r.trace.map IterLog.events).flatten

/-! ### Version scraper (`src/scripts/scrape-dsm-version.py`) -/

/-- One item of `data["info"]["verList"]` (only its `"value"` field is read). -/
structure VerListItem where
  value : String
deriving DecidableEq, Repr

/-- One entry of a version series (only its `"version"` field is read). -/
structure VerEntry where
  version : String
deriving DecidableEq, Repr

/-- The fields of the API response that `scrape_dsm_version` reads after the
`data["info"]["verList"]` / `data["info"]["versions"]["DSM"]` extraction:
the series list and the per-series entry lists. -/
structure ApiPayload where
  verList : List VerListItem
  versions : List (String × List VerEntry)
deriving DecidableEq, Repr

/-- The `for ver in ver_list:` search for the first item whose `"value"` is
not `"all_versions"`. -/
def findLatestSeries : List VerListItem → Option String
  | [] => none
  | v :: rest => if v.value ≠ "all_versions" then some v.value else findLatestSeries rest

/-- Maximal leading run of decimal digits of a character list, with the rest. -/
def takeDigits : List Char → List Char × List Char
  | [] => ([], [])
  | c :: cs =>
    if c.isDigit then
      let (d, r) := takeDigits cs
      (c :: d, r)
    else ([], c :: cs)

/-- Match the regex `(\d+\.\d+\.\d+)-(\d+)` anchored at the start of the
character list, returning the two groups.  Each `\d+` is a maximal digit run
followed by the required literal, which is exactly the greedy semantics of
the pattern (a shorter run would be followed by a digit, not the literal). -/
def matchVersionAt (s : List Char) : Option (String × String) :=
  let (d1, r1) := takeDigits s
  if d1 = [] then none else
  match r1 with
  | '.' :: r2 =>
    let (d2, r3) := takeDigits r2
    if d2 = [] then none else
    match r3 with
    | '.' :: r4 =>
      let (d3, r5) := takeDigits r4
      if d3 = [] then none else
      match r5 with
      | '-' :: r6 =>
        let (d4, _) := takeDigits r6
        if d4 = [] then none else
        some (String.mk (d1 ++ '.' :: d2 ++ '.' :: d3), String.mk d4)
      | _ => none
    | _ => none
  | _ => none

/-- `re.search(r"(\d+\.\d+\.\d+)-(\d+)", s)`: leftmost match of the pattern,
trying each start position left to right. -/
def reSearchVersion : List Char → Option (String × String)
  | [] => none
  | c :: cs =>
    match matchVersionAt (c :: cs) with
    | some r => some r
    | none => reSearchVersion cs

/-- The scraper's result dict `{"version": ..., "build": ...}`. -/
structure DsmVersion where
  version : String
  build : String
deriving DecidableEq, Repr

/-- `scrape_dsm_version` on an already-fetched payload: pick the first
series whose value is not `"all_versions"` (an empty value is falsy in
`if not latest_series`, hence an error), look the series up in the versions
dict, require a non-empty entry list, and extract the version/build groups
from the first entry's version string. -/
def scrape_dsm_version (p : ApiPayload) : Option DsmVersion :=
  match findLatestSeries p.verList with
  | none => none
  | some series =>
    if series = "" then none
    else
      match p.versions.lookup series with
      | none => none
      | some versions =>
        match versions with
        | [] => none
        | entry :: _ =>
          match reSearchVersion entry.version.data with
          | none => none
          | some (v, b) => some ⟨v, b⟩

/-- The text printed to standard output by
`print(json.dumps(output, indent=2))` for the `{version, build,
full_version}` dict (keys in insertion order, two-space indent). -/
def jsonOutput (version build : String) : String :=
  "\x7b\n  \"version\": \"" ++ version ++ "\",\n  \"build\": \"" ++ build ++
    "\",\n  \"full_version\": \"" ++ version ++ "-" ++ build ++ "\"\n\x7d"

/-- The file content written by `update_version_file`. -/
def versionFileContent (version build : String) : String :=
  "#!/usr/bin/env bash\n# DSM version configuration\n" ++
    "# These variables are sourced by build-image.sh and GitHub Actions\n" ++
    "export DSM_VERSION=\"" ++ version ++ "\"\nexport DSM_BUILD=\"" ++ build ++ "\"\n"

/-- The lines appended to the `GITHUB_OUTPUT` file when that variable is set. -/
def githubOutputLines (version build : String) : String :=
  "version=" ++ version ++ "\nbuild=" ++ build ++ "\n"

/-- The scraper's parsed command-line flags. -/
structure ScrapeArgs where
  update_file : Bool
  json : Bool
deriving DecidableEq, Repr

/-- Observable effects of the scraper's `main`: process exit code, the JSON
object printed to standard output (if any), the content written to
`dsm-version.sh` (if any), and the lines appended to `GITHUB_OUTPUT` (if any). -/
structure MainEffects where
  exitCode : Nat
  stdout : Option String
  versionFile : Option String
  githubOutput : Option String
deriving DecidableEq, Repr

/-- The scraper's `main` on an already-fetched payload: exit 1 when scraping
failed; otherwise write `dsm-version.sh` when `--update-file` was given,
append to `GITHUB_OUTPUT` when that variable is set, and print the JSON
object when `--json` was given or `--update-file` was not. -/
def scrape_main (args : ScrapeArgs) (githubOutputSet : Bool) (p : ApiPayload) : MainEffects :=
  match scrape_dsm_version p with
  | none => ⟨1, none, none, none⟩
  | some r =>
    ⟨0,
     if args.json || !args.update_file then some (jsonOutput r.version r.build) else none,
     if args.update_file then some (versionFileContent r.version r.build) else none,
     if githubOutputSet then some (githubOutputLines r.version r.build) else none⟩

/-! ### Helper notions for trace properties -/

/-- The events carried by a handling result. -/
def HandleResult.events : HandleResult → List Event
  | .completed e => e
  | .timedOut e => e
  | .fatal e => e

/-- The seen-set carried by a scan result. -/
def ScanResult.seenSet : ScanResult → Finset String
  | .fatal _ s _ _ => s
  | .done s _ _ => s

/-- The events carried by a scan result. -/
def ScanResult.evs : ScanResult → List Event
  | .fatal _ _ _ e => e
  | .done _ _ e => e

/-- Whether an event is a `dismissed` event. -/
def isDismiss : Event → Bool
  | .dismissed _ => true
  | _ => false

/-- `mark n` occurs strictly before any target event in the trace: every
prefix of the trace that contains the target already contains `mark n`. -/
def MarkedBefore (tgt : Event) (n : String) (tr : List Event) : Prop :=
  ∀ p, p <+: tr → tgt ∈ p → Event.mark n ∈ p

/-- A `dismissed` event can only sit at the very end of the list: every
prefix containing one is the whole list. -/
def DismissLast (tr : List Event) : Prop :=
  ∀ p m, p <+: tr → Event.dismissed m ∈ p → p = tr

lemma prefix_append_cases {α : Type} {p xs ys : List α} (h : p <+: xs ++ ys) :
    p <+: xs ∨ ∃ q, q <+: ys ∧ p = xs ++ q := by
  induction xs generalizing p with
  | nil => exact Or.inr ⟨p, by simpa using h, by simp⟩
  | cons x xs ih =>
    cases p with
    | nil => exact Or.inl List.nil_prefix
    | cons a p =>
      rw [List.cons_append, List.cons_prefix_cons] at h
      obtain ⟨rfl, h⟩ := h
      rcases ih h with h' | ⟨q, hq, rfl⟩
      · exact Or.inl (List.cons_prefix_cons.mpr ⟨rfl, h'⟩)
      · exact Or.inr ⟨q, hq, by simp⟩

lemma markedBefore_of_not_mem {tgt : Event} {n : String} {tr : List Event}
    (h : tgt ∉ tr) : MarkedBefore tgt n tr := by
  intro p hp hmem
  exact absurd (hp.subset hmem) h

lemma markedBefore_cons_mark (tgt : Event) (n : String) (evs : List Event) :
    MarkedBefore tgt n (Event.mark n :: evs) := by
  intro p hp hmem
  cases p with
  | nil => simp at hmem
  | cons a p =>
    rw [List.cons_prefix_cons] at hp
    simp [hp.1]

lemma markedBefore_append {tgt : Event} {n : String} {xs ys : List Event}
    (hx : MarkedBefore tgt n xs) (hy : MarkedBefore tgt n ys) :
    MarkedBefore tgt n (xs ++ ys) := by
  intro p hp hmem
  rcases prefix_append_cases hp with h | ⟨q, hq, rfl⟩
  · exact hx p h hmem
  · rcases List.mem_append.mp hmem with h | h
    · exact List.mem_append_left _ (hx xs List.prefix_rfl h)
    · exact List.mem_append_right _ (hy q hq h)

lemma dismissLast_of_no_dismiss {xs : List Event}
    (h : ∀ m, Event.dismissed m ∉ xs) : DismissLast xs := by
  intro p m hp hmem
  exact absurd (hp.subset hmem) (h m)

lemma dismissLast_append_no_dismiss {xs ys : List Event}
    (hx : ∀ m, Event.dismissed m ∉ xs) (hy : DismissLast ys) :
    DismissLast (xs ++ ys) := by
  intro p m hp hmem
  rcases prefix_append_cases hp with h | ⟨q, hq, rfl⟩
  · exact absurd (h.subset hmem) (hx m)
  · rcases List.mem_append.mp hmem with h | h
    · exact absurd h (hx m)
    · rw [hy q m hq h]

lemma dismissLast_snoc {xs : List Event} (n : String)
    (h : ∀ m, Event.dismissed m ∉ xs) : DismissLast (xs ++ [Event.dismissed n]) := by
  refine dismissLast_append_no_dismiss h ?_
  intro p m hp hmem
  cases p with
  | nil => simp at hmem
  | cons a p =>
    rw [List.cons_prefix_cons] at hp
    obtain ⟨rfl, hp⟩ := hp
    simp [List.prefix_nil.mp hp]

lemma dismissLast_suffix_nil {evs : List Event} (h : DismissLast evs)
    {pre suf : List Event} {n : String} (he : evs = pre ++ Event.dismissed n :: suf) :
    suf = [] := by
  have hp : pre ++ [Event.dismissed n] <+: evs := ⟨suf, by simpa using he.symm⟩
  have := h (pre ++ [Event.dismissed n]) n hp (by simp)
  rw [he] at this
  have : Event.dismissed n :: suf = [Event.dismissed n] := by
    have h2 := List.append_cancel_left (by simpa using this.symm :
      pre ++ Event.dismissed n :: suf = pre ++ [Event.dismissed n])
    simpa using h2
  simpa using this

lemma countP_dismiss_le_one {evs : List Event}
    (h : ∀ pre n suf, evs = pre ++ Event.dismissed n :: suf → suf = []) :
    evs.countP isDismiss ≤ 1 := by
  induction evs with
  | nil => simp
  | cons e rest ih =>
    cases e with
    | dismissed m =>
      have : rest = [] := h [] m rest (by simp)
      simp [this, List.countP_cons, isDismiss]
    | mark m =>
      rw [List.countP_cons]
      have : ∀ pre n suf, rest = pre ++ Event.dismissed n :: suf → suf = [] := by
        intro pre n suf hr
        exact h (Event.mark m :: pre) n suf (by simp [hr])
      simpa [isDismiss] using ih this
    | act m =>
      rw [List.countP_cons]
      have : ∀ pre n suf, rest = pre ++ Event.dismissed n :: suf → suf = [] := by
        intro pre n suf hr
        exact h (Event.act m :: pre) n suf (by simp [hr])
      simpa [isDismiss] using ih this
    | click m =>
      rw [List.countP_cons]
      have : ∀ pre n suf, rest = pre ++ Event.dismissed n :: suf → suf = [] := by
        intro pre n suf hr
        exact h (Event.click m :: pre) n suf (by simp [hr])
      simpa [isDismiss] using ih this

/-! ### Properties of handling one matched screen -/

lemma handle_events_cases (sc : Screen) (r : EnvResp) :
    (handle sc r).events = [] ∨
    (handle sc r).events = [Event.act sc.name] ∨
    (handle sc r).events = [Event.click sc.name] ∨
    (handle sc r).events = [Event.act sc.name, Event.click sc.name] ∨
    (handle sc r).events = [Event.dismissed sc.name] ∨
    (handle sc r).events = [Event.act sc.name, Event.dismissed sc.name] ∨
    (handle sc r).events = [Event.click sc.name, Event.dismissed sc.name] ∨
    (handle sc r).events = [Event.act sc.name, Event.click sc.name, Event.dismissed sc.name] := by
  cases hAct : sc.action <;> cases hA : r.act <;> cases hB : sc.button <;>
    cases hRB : r.button <;> cases hH : r.hidden <;> cases hS : r.settle <;>
    simp [handle, buttonStage, hiddenStage, settleStage, hAct, hA, hB, hRB, hH, hS,
      HandleResult.events]

lemma handle_mem {sc : Screen} {r : EnvResp} {e : Event}
    (h : e ∈ (handle sc r).events) :
    e = Event.act sc.name ∨ e = Event.click sc.name ∨ e = Event.dismissed sc.name := by
  rcases handle_events_cases sc r with hc | hc | hc | hc | hc | hc | hc | hc <;>
    rw [hc] at h <;> simp at h <;> tauto

lemma handle_mem_name {sc : Screen} {r : EnvResp} {e : Event}
    (h : e ∈ (handle sc r).events) : e.name = sc.name := by
  rcases handle_mem h with rfl | rfl | rfl <;> rfl

lemma handle_no_mark {sc : Screen} {r : EnvResp} (m : String) :
    Event.mark m ∉ (handle sc r).events := by
  intro h
  rcases handle_mem h with h' | h' | h' <;> simp at h'

lemma handle_nodup (sc : Screen) (r : EnvResp) : (handle sc r).events.Nodup := by
  rcases handle_events_cases sc r with hc | hc | hc | hc | hc | hc | hc | hc <;>
    rw [hc] <;> simp

lemma handle_count {sc : Screen} {r : EnvResp} (e : Event) :
    (handle sc r).events.count e ≤ 1 :=
  List.nodup_iff_count_le_one.mp (handle_nodup sc r) e

lemma dismissLast_nil : DismissLast [] := by
  intro p m hp hmem
  simp [List.prefix_nil.mp hp] at hmem

lemma dismissLast_single (n : String) : DismissLast [Event.dismissed n] := by
  intro p m hp hmem
  cases p with
  | nil => simp at hmem
  | cons a p =>
    rw [List.cons_prefix_cons] at hp
    obtain ⟨rfl, hp⟩ := hp
    simp [List.prefix_nil.mp hp]

lemma dismissLast_cons {e : Event} {l : List Event}
    (he : ∀ m, Event.dismissed m ≠ e) (h : DismissLast l) : DismissLast (e :: l) := by
  intro p m hp hmem
  cases p with
  | nil => simp at hmem
  | cons a p =>
    rw [List.cons_prefix_cons] at hp
    obtain ⟨rfl, hp⟩ := hp
    have : Event.dismissed m ∈ p := by
      rcases List.mem_cons.mp hmem with h' | h'
      · exact absurd h' (he m)
      · exact h'
    rw [h p m hp this]

lemma handle_timedOut_no_dismiss {sc : Screen} {r : EnvResp} {evs : List Event}
    (h : handle sc r = .timedOut evs) : ∀ m, Event.dismissed m ∉ evs := by
  cases hAct : sc.action <;> cases hA : r.act <;> cases hB : sc.button <;>
    cases hRB : r.button <;> cases hH : r.hidden <;> cases hS : r.settle <;>
    simp [handle, buttonStage, hiddenStage, settleStage, hAct, hA, hB, hRB, hH, hS] at h <;>
    subst h <;> simp

lemma handle_fatal_no_dismiss {sc : Screen} {r : EnvResp} {evs : List Event}
    (h : handle sc r = .fatal evs) : ∀ m, Event.dismissed m ∉ evs := by
  cases hAct : sc.action <;> cases hA : r.act <;> cases hB : sc.button <;>
    cases hRB : r.button <;> cases hH : r.hidden <;> cases hS : r.settle <;>
    simp [handle, buttonStage, hiddenStage, settleStage, hAct, hA, hB, hRB, hH, hS] at h <;>
    subst h <;> simp

lemma handle_completed_dismissLast {sc : Screen} {r : EnvResp} {evs : List Event}
    (h : handle sc r = .completed evs) : DismissLast (Event.mark sc.name :: evs) := by
  cases hAct : sc.action <;> cases hA : r.act <;> cases hB : sc.button <;>
    cases hRB : r.button <;> cases hH : r.hidden <;> cases hS : r.settle <;>
    simp [handle, buttonStage, hiddenStage, settleStage, hAct, hA, hB, hRB, hH, hS] at h <;>
    subst h <;>
    repeat
      first
      | exact dismissLast_single _
      | refine dismissLast_cons (by simp) ?_

/-! ### Properties of the catalog scan -/

/-- The `screen_found` flag carried by a scan result. -/
def ScanResult.foundFlag : ScanResult → Bool
  | .fatal _ _ f _ => f
  | .done _ f _ => f

lemma addEvents_seenSet (pre : List Event) (r : ScanResult) :
    (r.addEvents pre).seenSet = r.seenSet := by
  cases r <;> rfl

lemma addEvents_evs (pre : List Event) (r : ScanResult) :
    (r.addEvents pre).evs = pre ++ r.evs := by
  cases r <;> rfl

lemma scanFrom_nil (env : Env) (t i : Nat) (seen : Finset String) (found : Bool) :
    scanFrom env t i [] seen found = .done seen found [] := rfl

lemma scanFrom_cons_notVisible {env : Env} {t i : Nat} {sc : Screen}
    {rest : List Screen} {seen : Finset String} {found : Bool}
    (hd : (env.resp t i).detect = .notVisible) :
    scanFrom env t i (sc :: rest) seen found = scanFrom env t (i + 1) rest seen found := by
  simp [scanFrom, hd]

lemma scanFrom_cons_timeoutErr {env : Env} {t i : Nat} {sc : Screen}
    {rest : List Screen} {seen : Finset String} {found : Bool}
    (hd : (env.resp t i).detect = .timeoutErr) :
    scanFrom env t i (sc :: rest) seen found = scanFrom env t (i + 1) rest seen found := by
  simp [scanFrom, hd]

lemma scanFrom_cons_otherErr {env : Env} {t i : Nat} {sc : Screen}
    {rest : List Screen} {seen : Finset String} {found : Bool}
    (hd : (env.resp t i).detect = .otherErr) :
    scanFrom env t i (sc :: rest) seen found = .fatal sc.name seen found [] := by
  simp [scanFrom, hd]

lemma scanFrom_cons_visible_seen {env : Env} {t i : Nat} {sc : Screen}
    {rest : List Screen} {seen : Finset String} {found : Bool}
    (hd : (env.resp t i).detect = .visible) (hmem : sc.name ∈ seen) :
    scanFrom env t i (sc :: rest) seen found = scanFrom env t (i + 1) rest seen true := by
  simp [scanFrom, hd, hmem]

lemma scanFrom_cons_visible_completed {env : Env} {t i : Nat} {sc : Screen}
    {rest : List Screen} {seen : Finset String} {found : Bool} {evs : List Event}
    (hd : (env.resp t i).detect = .visible) (hmem : sc.name ∉ seen)
    (hh : handle sc (env.resp t i) = .completed evs) :
    scanFrom env t i (sc :: rest) seen found =
      .done (insert sc.name seen) true (Event.mark sc.name :: evs) := by
  simp [scanFrom, hd, hmem, hh]

lemma scanFrom_cons_visible_fatal {env : Env} {t i : Nat} {sc : Screen}
    {rest : List Screen} {seen : Finset String} {found : Bool} {evs : List Event}
    (hd : (env.resp t i).detect = .visible) (hmem : sc.name ∉ seen)
    (hh : handle sc (env.resp t i) = .fatal evs) :
    scanFrom env t i (sc :: rest) seen found =
      .fatal sc.name (insert sc.name seen) true (Event.mark sc.name :: evs) := by
  simp [scanFrom, hd, hmem, hh]

lemma scanFrom_cons_visible_timedOut {env : Env} {t i : Nat} {sc : Screen}
    {rest : List Screen} {seen : Finset String} {found : Bool} {evs : List Event}
    (hd : (env.resp t i).detect = .visible) (hmem : sc.name ∉ seen)
    (hh : handle sc (env.resp t i) = .timedOut evs) :
    scanFrom env t i (sc :: rest) seen found =
      (scanFrom env t (i + 1) rest (insert sc.name seen) true).addEvents
        (Event.mark sc.name :: evs) := by
  simp [scanFrom, hd, hmem, hh]

lemma scan_seen_mono (env : Env) (t : Nat) (screens : List Screen) :
    ∀ (i : Nat) (seen : Finset String) (found : Bool),
      seen ⊆ (scanFrom env t i screens seen found).seenSet := by
  induction screens with
  | nil =>
    intro i seen found
    rw [scanFrom_nil]
    exact Finset.Subset.refl _
  | cons sc rest ih =>
    intro i seen found
    cases hd : (env.resp t i).detect with
    | notVisible =>
      rw [scanFrom_cons_notVisible hd]
      exact ih _ _ _
    | timeoutErr =>
      rw [scanFrom_cons_timeoutErr hd]
      exact ih _ _ _
    | otherErr =>
      rw [scanFrom_cons_otherErr hd]
      exact Finset.Subset.refl _
    | visible =>
      by_cases hmem : sc.name ∈ seen
      · rw [scanFrom_cons_visible_seen hd hmem]
        exact ih _ _ _
      · cases hh : handle sc (env.resp t i) with
        | completed evs =>
          rw [scanFrom_cons_visible_completed hd hmem hh]
          exact Finset.subset_insert _ _
        | fatal evs =>
          rw [scanFrom_cons_visible_fatal hd hmem hh]
          exact Finset.subset_insert _ _
        | timedOut evs =>
          rw [scanFrom_cons_visible_timedOut hd hmem hh, addEvents_seenSet]
          exact (Finset.subset_insert _ _).trans (ih _ _ _)

lemma scan_seen_subset (env : Env) (t : Nat) (screens : List Screen) :
    ∀ (i : Nat) (seen : Finset String) (found : Bool),
      (scanFrom env t i screens seen found).seenSet ⊆
        seen ∪ (screens.map Screen.name).toFinset := by
  induction screens with
  | nil =>
    intro i seen found
    rw [scanFrom_nil]
    exact Finset.subset_union_left
  | cons sc rest ih =>
    intro i seen found
    have hrest : seen ∪ (rest.map Screen.name).toFinset ⊆
        seen ∪ ((sc :: rest).map Screen.name).toFinset := by
      intro x hx
      rcases Finset.mem_union.mp hx with h | h
      · exact Finset.mem_union.mpr (Or.inl h)
      · refine Finset.mem_union.mpr (Or.inr ?_)
        simp only [List.map_cons, List.toFinset_cons, Finset.mem_insert]
        exact Or.inr (by simpa using h)
    have hins : insert sc.name seen ∪ (rest.map Screen.name).toFinset ⊆
        seen ∪ ((sc :: rest).map Screen.name).toFinset := by
      intro x hx
      rcases Finset.mem_union.mp hx with h | h
      · rcases Finset.mem_insert.mp h with rfl | h'
        · refine Finset.mem_union.mpr (Or.inr ?_)
          simp
        · exact Finset.mem_union.mpr (Or.inl h')
      · exact hrest (Finset.mem_union.mpr (Or.inr h))
    cases hd : (env.resp t i).detect with
    | notVisible =>
      rw [scanFrom_cons_notVisible hd]
      exact (ih _ _ _).trans hrest
    | timeoutErr =>
      rw [scanFrom_cons_timeoutErr hd]
      exact (ih _ _ _).trans hrest
    | otherErr =>
      rw [scanFrom_cons_otherErr hd]
      exact Finset.subset_union_left
    | visible =>
      by_cases hmem : sc.name ∈ seen
      · rw [scanFrom_cons_visible_seen hd hmem]
        exact (ih _ _ _).trans hrest
      · cases hh : handle sc (env.resp t i) with
        | completed evs =>
          rw [scanFrom_cons_visible_completed hd hmem hh]
          exact (Finset.subset_union_left).trans hins
        | fatal evs =>
          rw [scanFrom_cons_visible_fatal hd hmem hh]
          exact (Finset.subset_union_left).trans hins
        | timedOut evs =>
          rw [scanFrom_cons_visible_timedOut hd hmem hh, addEvents_seenSet]
          exact (ih _ _ _).trans hins

lemma scan_mem_name (env : Env) (t : Nat) (screens : List Screen) :
    ∀ (i : Nat) (seen : Finset String) (found : Bool) (e : Event),
      e ∈ (scanFrom env t i screens seen found).evs →
        e.name ∈ (scanFrom env t i screens seen found).seenSet := by
  induction screens with
  | nil =>
    intro i seen found e he
    rw [scanFrom_nil] at he
    simp [ScanResult.evs] at he
  | cons sc rest ih =>
    intro i seen found e he
    cases hd : (env.resp t i).detect with
    | notVisible =>
      rw [scanFrom_cons_notVisible hd] at he ⊢
      exact ih _ _ _ _ he
    | timeoutErr =>
      rw [scanFrom_cons_timeoutErr hd] at he ⊢
      exact ih _ _ _ _ he
    | otherErr =>
      rw [scanFrom_cons_otherErr hd] at he
      simp [ScanResult.evs] at he
    | visible =>
      by_cases hmem : sc.name ∈ seen
      · rw [scanFrom_cons_visible_seen hd hmem] at he ⊢
        exact ih _ _ _ _ he
      · cases hh : handle sc (env.resp t i) with
        | completed evs =>
          rw [scanFrom_cons_visible_completed hd hmem hh] at he ⊢
          simp only [ScanResult.evs, List.mem_cons] at he
          simp only [ScanResult.seenSet]
          rcases he with rfl | he
          · simp [Event.name]
          · have : e.name = sc.name := handle_mem_name (by rw [hh]; exact he)
            simp [this]
        | fatal evs =>
          rw [scanFrom_cons_visible_fatal hd hmem hh] at he ⊢
          simp only [ScanResult.evs, List.mem_cons] at he
          simp only [ScanResult.seenSet]
          rcases he with rfl | he
          · simp [Event.name]
          · have : e.name = sc.name := handle_mem_name (by rw [hh]; exact he)
            simp [this]
        | timedOut evs =>
          rw [scanFrom_cons_visible_timedOut hd hmem hh] at he ⊢
          rw [addEvents_evs] at he
          rw [addEvents_seenSet]
          rcases List.mem_append.mp he with he' | he'
          · have hn : e.name = sc.name := by
              rcases List.mem_cons.mp he' with rfl | he''
              · rfl
              · exact handle_mem_name (by rw [hh]; exact he'')
            have : sc.name ∈ (scanFrom env t (i + 1) rest (insert sc.name seen) true).seenSet :=
              scan_seen_mono env t rest _ _ _ (Finset.mem_insert_self _ _)
            rw [hn]
            exact this
          · exact ih _ _ _ _ he'

lemma handle_block_name {sc : Screen} {r : EnvResp} {e : Event}
    (h : e ∈ Event.mark sc.name :: (handle sc r).events) : e.name = sc.name := by
  rcases List.mem_cons.mp h with rfl | h'
  · rfl
  · exact handle_mem_name h'

lemma handle_block_count (sc : Screen) (r : EnvResp) (e : Event) :
    (Event.mark sc.name :: (handle sc r).events).count e ≤ 1 := by
  rw [List.count_cons]
  by_cases he : e = Event.mark sc.name
  · subst he
    have : (handle sc r).events.count (Event.mark sc.name) = 0 :=
      List.count_eq_zero.mpr (handle_no_mark sc.name)
    simp [this]
  · have : (Event.mark sc.name == e) = false := by
      simp
      exact fun hc => he hc.symm
    rw [this]
    simpa using handle_count e

lemma block_not_mem {sc : Screen} {r : EnvResp} {e : Event}
    (h : e.name ≠ sc.name) : e ∉ Event.mark sc.name :: (handle sc r).events := by
  intro hmem
  exact h (handle_block_name hmem)

lemma scan_count (env : Env) (t : Nat) (screens : List Screen) :
    ∀ (i : Nat) (seen : Finset String) (found : Bool) (e : Event),
      (scanFrom env t i screens seen found).evs.count e ≤
        if e.name ∈ seen then 0 else 1 := by
  induction screens with
  | nil =>
    intro i seen found e
    rw [scanFrom_nil]
    simp only [ScanResult.evs, List.count_nil]
    split_ifs <;> omega
  | cons sc rest ih =>
    intro i seen found e
    cases hd : (env.resp t i).detect with
    | notVisible =>
      rw [scanFrom_cons_notVisible hd]
      exact ih _ _ _ _
    | timeoutErr =>
      rw [scanFrom_cons_timeoutErr hd]
      exact ih _ _ _ _
    | otherErr =>
      rw [scanFrom_cons_otherErr hd]
      simp only [ScanResult.evs, List.count_nil]
      split_ifs <;> omega
    | visible =>
      by_cases hmem : sc.name ∈ seen
      · rw [scanFrom_cons_visible_seen hd hmem]
        exact ih _ _ _ _
      · cases hh : handle sc (env.resp t i) with
        | completed evs =>
          rw [scanFrom_cons_visible_completed hd hmem hh]
          simp only [ScanResult.evs]
          have hevs : (handle sc (env.resp t i)).events = evs := by
            rw [hh]
            rfl
          by_cases hcase : e.name ∈ seen
          · have hne : e.name ≠ sc.name := fun h => hmem (h ▸ hcase)
            have : e ∉ Event.mark sc.name :: evs := by
              rw [← hevs]
              exact block_not_mem hne
            simp [hcase, List.count_eq_zero.mpr this]
          · have := handle_block_count sc (env.resp t i) e
            rw [hevs] at this
            simpa [hcase] using this
        | fatal evs =>
          rw [scanFrom_cons_visible_fatal hd hmem hh]
          simp only [ScanResult.evs]
          have hevs : (handle sc (env.resp t i)).events = evs := by
            rw [hh]
            rfl
          by_cases hcase : e.name ∈ seen
          · have hne : e.name ≠ sc.name := fun h => hmem (h ▸ hcase)
            have : e ∉ Event.mark sc.name :: evs := by
              rw [← hevs]
              exact block_not_mem hne
            simp [hcase, List.count_eq_zero.mpr this]
          · have := handle_block_count sc (env.resp t i) e
            rw [hevs] at this
            simpa [hcase] using this
        | timedOut evs =>
          rw [scanFrom_cons_visible_timedOut hd hmem hh, addEvents_evs]
          have hevs : (handle sc (env.resp t i)).events = evs := by
            rw [hh]
            rfl
          have hrest := ih (i + 1) (insert sc.name seen) true e
          rw [List.cons_append, List.count_cons, List.count_append]
          by_cases hcase : e.name ∈ seen
          · have hne : e.name ≠ sc.name := fun h => hmem (h ▸ hcase)
            have hblock : e ∉ Event.mark sc.name :: evs := by
              rw [← hevs]
              exact block_not_mem hne
            have h1 : evs.count e = 0 :=
              List.count_eq_zero.mpr (fun h => hblock (List.mem_cons_of_mem _ h))
            have hif : (if (Event.mark sc.name == e) = true then (1 : Nat) else 0) = 0 := by
              have h2 : (Event.mark sc.name == e) = false := by
                simp only [beq_eq_false_iff_ne, ne_eq]
                exact fun hc => hblock (hc ▸ List.mem_cons_self _ _)
              rw [h2]
              simp
            have hmem2 : e.name ∈ insert sc.name seen := Finset.mem_insert_of_mem hcase
            have h3 : (scanFrom env t (i + 1) rest (insert sc.name seen) true).evs.count e = 0 := by
              have h := hrest
              rw [if_pos hmem2] at h
              omega
            rw [if_pos hcase, h1, hif, h3]
          · by_cases hsc : e.name = sc.name
            · have hmem2 : e.name ∈ insert sc.name seen := by
                rw [hsc]
                exact Finset.mem_insert_self _ _
              have h3 : (scanFrom env t (i + 1) rest (insert sc.name seen) true).evs.count e = 0 := by
                have h := hrest
                rw [if_pos hmem2] at h
                omega
              have hbc := handle_block_count sc (env.resp t i) e
              rw [hevs, List.count_cons] at hbc
              rw [if_neg hcase, h3]
              omega
            · have hblock : e ∉ Event.mark sc.name :: evs := by
                rw [← hevs]
                exact block_not_mem hsc
              have h1 : evs.count e = 0 :=
                List.count_eq_zero.mpr (fun h => hblock (List.mem_cons_of_mem _ h))
              have hif : (if (Event.mark sc.name == e) = true then (1 : Nat) else 0) = 0 := by
                have h2 : (Event.mark sc.name == e) = false := by
                  simp only [beq_eq_false_iff_ne, ne_eq]
                  exact fun hc => hblock (hc ▸ List.mem_cons_self _ _)
                rw [h2]
                simp
              have hmem2 : e.name ∉ insert sc.name seen := by
                intro hin
                rcases Finset.mem_insert.mp hin with h | h
                · exact hsc h
                · exact hcase h
              have h3 : (scanFrom env t (i + 1) rest (insert sc.name seen) true).evs.count e ≤ 1 := by
                have h := hrest
                rw [if_neg hmem2] at h
                exact h
              rw [if_neg hcase, h1, hif]
              omega

lemma scan_marked_before (env : Env) (t : Nat) (screens : List Screen) :
    ∀ (i : Nat) (seen : Finset String) (found : Bool) (e : Event) (n : String),
      e.name = n → e ≠ Event.mark n →
      MarkedBefore e n (scanFrom env t i screens seen found).evs := by
  induction screens with
  | nil =>
    intro i seen found e n _ _
    rw [scanFrom_nil]
    exact markedBefore_of_not_mem (by simp [ScanResult.evs])
  | cons sc rest ih =>
    intro i seen found e n hname hne
    cases hd : (env.resp t i).detect with
    | notVisible =>
      rw [scanFrom_cons_notVisible hd]
      exact ih _ _ _ _ _ hname hne
    | timeoutErr =>
      rw [scanFrom_cons_timeoutErr hd]
      exact ih _ _ _ _ _ hname hne
    | otherErr =>
      rw [scanFrom_cons_otherErr hd]
      exact markedBefore_of_not_mem (by simp [ScanResult.evs])
    | visible =>
      by_cases hmem : sc.name ∈ seen
      · rw [scanFrom_cons_visible_seen hd hmem]
        exact ih _ _ _ _ _ hname hne
      · have hevs : ∀ evs, handle sc (env.resp t i) = .timedOut evs ∨
            handle sc (env.resp t i) = .completed evs ∨
            handle sc (env.resp t i) = .fatal evs →
            (handle sc (env.resp t i)).events = evs := by
          intro evs h
          rcases h with h | h | h <;> rw [h] <;> rfl
        have hblockMB : ∀ evs, (handle sc (env.resp t i)).events = evs →
            MarkedBefore e n (Event.mark sc.name :: evs) := by
          intro evs heq
          by_cases hsc : sc.name = n
          · rw [hsc]
            exact markedBefore_cons_mark e n evs
          · refine markedBefore_of_not_mem ?_
            rw [← heq]
            refine block_not_mem ?_
            rw [hname]
            exact fun h => hsc h.symm
        cases hh : handle sc (env.resp t i) with
        | completed evs =>
          rw [scanFrom_cons_visible_completed hd hmem hh]
          exact hblockMB evs (hevs evs (Or.inr (Or.inl hh)))
        | fatal evs =>
          rw [scanFrom_cons_visible_fatal hd hmem hh]
          exact hblockMB evs (hevs evs (Or.inr (Or.inr hh)))
        | timedOut evs =>
          rw [scanFrom_cons_visible_timedOut hd hmem hh, addEvents_evs]
          rw [show Event.mark sc.name :: evs ++
              (scanFrom env t (i + 1) rest (insert sc.name seen) true).evs =
              (Event.mark sc.name :: evs) ++
              (scanFrom env t (i + 1) rest (insert sc.name seen) true).evs from rfl]
          exact markedBefore_append (hblockMB evs (hevs evs (Or.inl hh)))
            (ih _ _ _ _ _ hname hne)

lemma scan_dismissLast (env : Env) (t : Nat) (screens : List Screen) :
    ∀ (i : Nat) (seen : Finset String) (found : Bool),
      DismissLast (scanFrom env t i screens seen found).evs := by
  induction screens with
  | nil =>
    intro i seen found
    rw [scanFrom_nil]
    exact dismissLast_nil
  | cons sc rest ih =>
    intro i seen found
    cases hd : (env.resp t i).detect with
    | notVisible =>
      rw [scanFrom_cons_notVisible hd]
      exact ih _ _ _
    | timeoutErr =>
      rw [scanFrom_cons_timeoutErr hd]
      exact ih _ _ _
    | otherErr =>
      rw [scanFrom_cons_otherErr hd]
      exact dismissLast_nil
    | visible =>
      by_cases hmem : sc.name ∈ seen
      · rw [scanFrom_cons_visible_seen hd hmem]
        exact ih _ _ _
      · cases hh : handle sc (env.resp t i) with
        | completed evs =>
          rw [scanFrom_cons_visible_completed hd hmem hh]
          exact handle_completed_dismissLast hh
        | fatal evs =>
          rw [scanFrom_cons_visible_fatal hd hmem hh]
          refine dismissLast_of_no_dismiss ?_
          intro m hmem'
          rcases List.mem_cons.mp hmem' with h | h
          · exact absurd h (by simp)
          · exact handle_fatal_no_dismiss hh m h
        | timedOut evs =>
          rw [scanFrom_cons_visible_timedOut hd hmem hh, addEvents_evs]
          rw [show Event.mark sc.name :: evs ++
              (scanFrom env t (i + 1) rest (insert sc.name seen) true).evs =
              (Event.mark sc.name :: evs) ++
              (scanFrom env t (i + 1) rest (insert sc.name seen) true).evs from rfl]
          refine dismissLast_append_no_dismiss ?_ (ih _ _ _)
          intro m hmem'
          rcases List.mem_cons.mp hmem' with h | h
          · exact absurd h (by simp)
          · exact handle_timedOut_no_dismiss hh m h

/-! ### Properties of the loop -/

lemma runLoop_zero (cat : List Screen) (env : Env) (t : Nat) (seen : Finset String) (c : Nat) :
    runLoop cat env 0 t seen c = ⟨.outOfFuel, seen, []⟩ := rfl

lemma runLoop_timeout {cat : List Screen} {env : Env} {fuel t : Nat} {seen : Finset String}
    {c : Nat} (h : env.elapsed t > timeout_seconds) :
    runLoop cat env (fuel + 1) t seen c =
      ⟨.convergenceTimeout (all_screen_names cat \ seen), seen, []⟩ := by
  simp [runLoop, h]

lemma runLoop_full {cat : List Screen} {env : Env} {fuel t : Nat} {seen : Finset String}
    {c : Nat} (h1 : ¬ env.elapsed t > timeout_seconds) (h2 : seen = all_screen_names cat) :
    runLoop cat env (fuel + 1) t seen c = ⟨.fullCoverage, seen, []⟩ := by
  simp [runLoop, h1, h2]

lemma runLoop_fatal {cat : List Screen} {env : Env} {fuel t : Nat} {seen : Finset String}
    {c : Nat} {n : String} {s : Finset String} {f : Bool} {evs : List Event}
    (h1 : ¬ env.elapsed t > timeout_seconds) (h2 : seen ≠ all_screen_names cat)
    (h3 : scanFrom env t 0 cat seen false = .fatal n s f evs) :
    runLoop cat env (fuel + 1) t seen c = ⟨.fatalError n, s, [⟨seen, c, f, evs⟩]⟩ := by
  simp [runLoop, h1, h2, h3]

lemma runLoop_found {cat : List Screen} {env : Env} {fuel t : Nat} {seen : Finset String}
    {c : Nat} {seen' : Finset String} {evs : List Event}
    (h1 : ¬ env.elapsed t > timeout_seconds) (h2 : seen ≠ all_screen_names cat)
    (h3 : scanFrom env t 0 cat seen false = .done seen' true evs) :
    runLoop cat env (fuel + 1) t seen c =
      ⟨(runLoop cat env fuel (t + 1) seen' 0).exit,
       (runLoop cat env fuel (t + 1) seen' 0).seen,
       ⟨seen, c, true, evs⟩ :: (runLoop cat env fuel (t + 1) seen' 0).trace⟩ := by
  simp [runLoop, h1, h2, h3]

lemma runLoop_idle {cat : List Screen} {env : Env} {fuel t : Nat} {seen : Finset String}
    {c : Nat} {seen' : Finset String} {evs : List Event}
    (h1 : ¬ env.elapsed t > timeout_seconds) (h2 : seen ≠ all_screen_names cat)
    (h3 : scanFrom env t 0 cat seen false = .done seen' false evs) (h4 : c + 1 ≥ idle_threshold) :
    runLoop cat env (fuel + 1) t seen c = ⟨.idleConvergence, seen', [⟨seen, c, false, evs⟩]⟩ := by
  simp [runLoop, h1, h2, h3, h4]

lemma runLoop_noMatch {cat : List Screen} {env : Env} {fuel t : Nat} {seen : Finset String}
    {c : Nat} {seen' : Finset String} {evs : List Event}
    (h1 : ¬ env.elapsed t > timeout_seconds) (h2 : seen ≠ all_screen_names cat)
    (h3 : scanFrom env t 0 cat seen false = .done seen' false evs) (h4 : c + 1 < idle_threshold) :
    runLoop cat env (fuel + 1) t seen c =
      ⟨(runLoop cat env fuel (t + 1) seen' (c + 1)).exit,
       (runLoop cat env fuel (t + 1) seen' (c + 1)).seen,
       ⟨seen, c, false, evs⟩ :: (runLoop cat env fuel (t + 1) seen' (c + 1)).trace⟩ := by
  have h4' : ¬ c + 1 ≥ idle_threshold := by omega
  simp [runLoop, h1, h2, h3, h4']

lemma allEvents_cons (ex : ExitKind) (s : Finset String) (log : IterLog) (tr : List IterLog) :
    LoopResult.allEvents ⟨ex, s, log :: tr⟩ = log.events ++ LoopResult.allEvents ⟨ex, s, tr⟩ := by
  simp [LoopResult.allEvents]

lemma allEvents_nil (ex : ExitKind) (s : Finset String) :
    LoopResult.allEvents ⟨ex, s, []⟩ = [] := rfl

lemma loop_seen_mono (cat : List Screen) (env : Env) :
    ∀ (fuel t : Nat) (seen : Finset String) (c : Nat),
      seen ⊆ (runLoop cat env fuel t seen c).seen := by
  intro fuel
  induction fuel with
  | zero =>
    intro t seen c
    rw [runLoop_zero]
  | succ fuel ih =>
    intro t seen c
    by_cases h1 : env.elapsed t > timeout_seconds
    · rw [runLoop_timeout h1]
    · by_cases h2 : seen = all_screen_names cat
      · rw [runLoop_full h1 h2]
      · cases hscan : scanFrom env t 0 cat seen false with
        | fatal n s f evs =>
          rw [runLoop_fatal h1 h2 hscan]
          have hs := scan_seen_mono env t cat 0 seen false
          rw [hscan] at hs
          exact hs
        | done s f evs =>
          have hsub : seen ⊆ s := by
            have hs := scan_seen_mono env t cat 0 seen false
            rw [hscan] at hs
            exact hs
          cases f with
          | true =>
            rw [runLoop_found h1 h2 hscan]
            exact hsub.trans (ih (t + 1) s 0)
          | false =>
            by_cases h4 : c + 1 ≥ idle_threshold
            · rw [runLoop_idle h1 h2 hscan h4]
              exact hsub
            · rw [runLoop_noMatch h1 h2 hscan (by omega)]
              exact hsub.trans (ih (t + 1) s (c + 1))

lemma loop_seen_subset (cat : List Screen) (env : Env) :
    ∀ (fuel t : Nat) (seen : Finset String) (c : Nat),
      (runLoop cat env fuel t seen c).seen ⊆ seen ∪ all_screen_names cat := by
  intro fuel
  induction fuel with
  | zero =>
    intro t seen c
    rw [runLoop_zero]
    exact Finset.subset_union_left
  | succ fuel ih =>
    intro t seen c
    by_cases h1 : env.elapsed t > timeout_seconds
    · rw [runLoop_timeout h1]
      exact Finset.subset_union_left
    · by_cases h2 : seen = all_screen_names cat
      · rw [runLoop_full h1 h2]
        exact Finset.subset_union_left
      · cases hscan : scanFrom env t 0 cat seen false with
        | fatal n s f evs =>
          rw [runLoop_fatal h1 h2 hscan]
          have hs := scan_seen_subset env t cat 0 seen false
          rw [hscan] at hs
          exact hs
        | done s f evs =>
          have hsub : s ⊆ seen ∪ all_screen_names cat := by
            have hs := scan_seen_subset env t cat 0 seen false
            rw [hscan] at hs
            exact hs
          have hstep : s ∪ all_screen_names cat ⊆ seen ∪ all_screen_names cat :=
            Finset.union_subset hsub Finset.subset_union_right
          cases f with
          | true =>
            rw [runLoop_found h1 h2 hscan]
            exact (ih (t + 1) s 0).trans hstep
          | false =>
            by_cases h4 : c + 1 ≥ idle_threshold
            · rw [runLoop_idle h1 h2 hscan h4]
              exact hsub
            · rw [runLoop_noMatch h1 h2 hscan (by omega)]
              exact (ih (t + 1) s (c + 1)).trans hstep

lemma loop_head (cat : List Screen) (env : Env) :
    ∀ (fuel t : Nat) (seen : Finset String) (c : Nat),
      ((runLoop cat env fuel t seen c).trace.map IterLog.seenBefore ++
        [(runLoop cat env fuel t seen c).seen]).head? = some seen := by
  intro fuel
  induction fuel with
  | zero =>
    intro t seen c
    rw [runLoop_zero]
    rfl
  | succ fuel _ =>
    intro t seen c
    by_cases h1 : env.elapsed t > timeout_seconds
    · rw [runLoop_timeout h1]
      rfl
    · by_cases h2 : seen = all_screen_names cat
      · rw [runLoop_full h1 h2]
        rfl
      · cases hscan : scanFrom env t 0 cat seen false with
        | fatal n s f evs =>
          rw [runLoop_fatal h1 h2 hscan]
          rfl
        | done s f evs =>
          cases f with
          | true =>
            rw [runLoop_found h1 h2 hscan]
            rfl
          | false =>
            by_cases h4 : c + 1 ≥ idle_threshold
            · rw [runLoop_idle h1 h2 hscan h4]
              rfl
            · rw [runLoop_noMatch h1 h2 hscan (by omega)]
              rfl

lemma loop_chain (cat : List Screen) (env : Env) :
    ∀ (fuel t : Nat) (seen : Finset String) (c : Nat),
      List.Chain' (· ⊆ ·) ((runLoop cat env fuel t seen c).trace.map IterLog.seenBefore ++
        [(runLoop cat env fuel t seen c).seen]) := by
  intro fuel
  induction fuel with
  | zero =>
    intro t seen c
    rw [runLoop_zero]
    exact List.chain'_singleton _
  | succ fuel ih =>
    intro t seen c
    by_cases h1 : env.elapsed t > timeout_seconds
    · rw [runLoop_timeout h1]
      exact List.chain'_singleton _
    · by_cases h2 : seen = all_screen_names cat
      · rw [runLoop_full h1 h2]
        exact List.chain'_singleton _
      · cases hscan : scanFrom env t 0 cat seen false with
        | fatal n s f evs =>
          rw [runLoop_fatal h1 h2 hscan]
          have hs := scan_seen_mono env t cat 0 seen false
          rw [hscan] at hs
          refine List.chain'_cons'.mpr ⟨?_, List.chain'_singleton _⟩
          intro y hy
          simp at hy
          rw [← hy]
          exact hs
        | done s f evs =>
          have hsub : seen ⊆ s := by
            have hs := scan_seen_mono env t cat 0 seen false
            rw [hscan] at hs
            exact hs
          cases f with
          | true =>
            rw [runLoop_found h1 h2 hscan]
            show List.Chain' (· ⊆ ·) (seen ::
              ((runLoop cat env fuel (t + 1) s 0).trace.map IterLog.seenBefore ++
                [(runLoop cat env fuel (t + 1) s 0).seen]))
            refine List.chain'_cons'.mpr ⟨?_, ih (t + 1) s 0⟩
            intro y hy
            rw [loop_head cat env fuel (t + 1) s 0] at hy
            simp at hy
            rw [← hy]
            exact hsub
          | false =>
            by_cases h4 : c + 1 ≥ idle_threshold
            · rw [runLoop_idle h1 h2 hscan h4]
              refine List.chain'_cons'.mpr ⟨?_, List.chain'_singleton _⟩
              intro y hy
              simp at hy
              rw [← hy]
              exact hsub
            · rw [runLoop_noMatch h1 h2 hscan (by omega)]
              show List.Chain' (· ⊆ ·) (seen ::
                ((runLoop cat env fuel (t + 1) s (c + 1)).trace.map IterLog.seenBefore ++
                  [(runLoop cat env fuel (t + 1) s (c + 1)).seen]))
              refine List.chain'_cons'.mpr ⟨?_, ih (t + 1) s (c + 1)⟩
              intro y hy
              rw [loop_head cat env fuel (t + 1) s (c + 1)] at hy
              simp at hy
              rw [← hy]
              exact hsub

lemma allEvents_shape (r : LoopResult) (log : IterLog) :
    (⟨r.exit, r.seen, log :: r.trace⟩ : LoopResult).allEvents = log.events ++ r.allEvents := by
  simp [LoopResult.allEvents]

lemma allEvents_single (ex : ExitKind) (s : Finset String) (log : IterLog) :
    (⟨ex, s, [log]⟩ : LoopResult).allEvents = log.events := by
  simp [LoopResult.allEvents]

lemma loop_count (cat : List Screen) (env : Env) :
    ∀ (fuel t : Nat) (seen : Finset String) (c : Nat) (e : Event),
      (runLoop cat env fuel t seen c).allEvents.count e ≤ if e.name ∈ seen then 0 else 1 := by
  intro fuel
  induction fuel with
  | zero =>
    intro t seen c e
    rw [runLoop_zero, allEvents_nil, List.count_nil]
    exact Nat.zero_le _
  | succ fuel ih =>
    intro t seen c e
    by_cases h1 : env.elapsed t > timeout_seconds
    · rw [runLoop_timeout h1, allEvents_nil, List.count_nil]
      exact Nat.zero_le _
    · by_cases h2 : seen = all_screen_names cat
      · rw [runLoop_full h1 h2, allEvents_nil, List.count_nil]
        exact Nat.zero_le _
      · have hscanC := scan_count env t cat 0 seen false e
        cases hscan : scanFrom env t 0 cat seen false with
        | fatal n s f evs =>
          rw [hscan] at hscanC
          simp only [ScanResult.evs] at hscanC
          rw [runLoop_fatal h1 h2 hscan, allEvents_single,
            show (⟨seen, c, f, evs⟩ : IterLog).events = evs from rfl]
          exact hscanC
        | done s f evs =>
          rw [hscan] at hscanC
          simp only [ScanResult.evs] at hscanC
          have hmemName : ∀ x ∈ evs, Event.name x ∈ s := by
            intro x hx
            have := scan_mem_name env t cat 0 seen false x
            rw [hscan] at this
            exact this hx
          have key : ∀ (next : LoopResult),
              (next.allEvents.count e ≤ if e.name ∈ s then 0 else 1) →
              (evs ++ next.allEvents).count e ≤ if e.name ∈ seen then 0 else 1 := by
            intro next hnext
            rw [List.count_append]
            by_cases hcase : e.name ∈ seen
            · have hes : e.name ∈ s := by
                have hs := scan_seen_mono env t cat 0 seen false
                rw [hscan] at hs
                exact hs hcase
              have h0 : evs.count e = 0 := by
                have h := hscanC
                rw [if_pos hcase] at h
                omega
              have h0' : next.allEvents.count e = 0 := by
                rw [if_pos hes] at hnext
                omega
              rw [if_pos hcase, h0, h0']
            · rw [if_neg hcase]
              by_cases hmem : e ∈ evs
              · have hes : e.name ∈ s := hmemName e hmem
                have h0' : next.allEvents.count e = 0 := by
                  rw [if_pos hes] at hnext
                  omega
                have h1' : evs.count e ≤ 1 := by
                  have h := hscanC
                  rw [if_neg hcase] at h
                  exact h
                omega
              · have h0 : evs.count e = 0 := List.count_eq_zero.mpr hmem
                have h1' : next.allEvents.count e ≤ 1 := by
                  by_cases hes : e.name ∈ s
                  · rw [if_pos hes] at hnext
                    omega
                  · rw [if_neg hes] at hnext
                    exact hnext
                omega
          cases f with
          | true =>
            rw [runLoop_found h1 h2 hscan, allEvents_shape,
              show (⟨seen, c, true, evs⟩ : IterLog).events = evs from rfl]
            exact key _ (ih (t + 1) s 0 e)
          | false =>
            by_cases h4 : c + 1 ≥ idle_threshold
            · rw [runLoop_idle h1 h2 hscan h4, allEvents_single,
                show (⟨seen, c, false, evs⟩ : IterLog).events = evs from rfl]
              by_cases hcase : e.name ∈ seen
              · have h := hscanC
                rw [if_pos hcase] at h
                rw [if_pos hcase]
                exact h
              · have h := hscanC
                rw [if_neg hcase] at h
                rw [if_neg hcase]
                exact h
            · rw [runLoop_noMatch h1 h2 hscan (by omega), allEvents_shape,
                show (⟨seen, c, false, evs⟩ : IterLog).events = evs from rfl]
              exact key _ (ih (t + 1) s (c + 1) e)

lemma loop_mem_name (cat : List Screen) (env : Env) :
    ∀ (fuel t : Nat) (seen : Finset String) (c : Nat) (e : Event),
      e ∈ (runLoop cat env fuel t seen c).allEvents →
        e.name ∈ (runLoop cat env fuel t seen c).seen := by
  intro fuel
  induction fuel with
  | zero =>
    intro t seen c e he
    rw [runLoop_zero, allEvents_nil] at he
    simp at he
  | succ fuel ih =>
    intro t seen c e he
    by_cases h1 : env.elapsed t > timeout_seconds
    · rw [runLoop_timeout h1, allEvents_nil] at he
      simp at he
    · by_cases h2 : seen = all_screen_names cat
      · rw [runLoop_full h1 h2, allEvents_nil] at he
        simp at he
      · cases hscan : scanFrom env t 0 cat seen false with
        | fatal n s f evs =>
          rw [runLoop_fatal h1 h2 hscan, allEvents_single,
            show (⟨seen, c, f, evs⟩ : IterLog).events = evs from rfl] at he
          rw [runLoop_fatal h1 h2 hscan]
          have hm := scan_mem_name env t cat 0 seen false e
          rw [hscan] at hm
          exact hm he
        | done s f evs =>
          have hm : ∀ x ∈ evs, Event.name x ∈ s := by
            intro x hx
            have := scan_mem_name env t cat 0 seen false x
            rw [hscan] at this
            exact this hx
          cases f with
          | true =>
            rw [runLoop_found h1 h2 hscan, allEvents_shape,
              show (⟨seen, c, true, evs⟩ : IterLog).events = evs from rfl] at he
            rw [runLoop_found h1 h2 hscan]
            rcases List.mem_append.mp he with h | h
            · exact loop_seen_mono cat env fuel (t + 1) s 0 (hm e h)
            · exact ih (t + 1) s 0 e h
          | false =>
            by_cases h4 : c + 1 ≥ idle_threshold
            · rw [runLoop_idle h1 h2 hscan h4, allEvents_single,
                show (⟨seen, c, false, evs⟩ : IterLog).events = evs from rfl] at he
              rw [runLoop_idle h1 h2 hscan h4]
              exact hm e he
            · rw [runLoop_noMatch h1 h2 hscan (by omega), allEvents_shape,
                show (⟨seen, c, false, evs⟩ : IterLog).events = evs from rfl] at he
              rw [runLoop_noMatch h1 h2 hscan (by omega)]
              rcases List.mem_append.mp he with h | h
              · exact loop_seen_mono cat env fuel (t + 1) s (c + 1) (hm e h)
              · exact ih (t + 1) s (c + 1) e h

lemma loop_marked_before (cat : List Screen) (env : Env) :
    ∀ (fuel t : Nat) (seen : Finset String) (c : Nat) (e : Event) (n : String),
      e.name = n → e ≠ Event.mark n →
      MarkedBefore e n (runLoop cat env fuel t seen c).allEvents := by
  intro fuel
  induction fuel with
  | zero =>
    intro t seen c e n _ _
    rw [runLoop_zero, allEvents_nil]
    exact markedBefore_of_not_mem (by simp)
  | succ fuel ih =>
    intro t seen c e n hname hne
    by_cases h1 : env.elapsed t > timeout_seconds
    · rw [runLoop_timeout h1, allEvents_nil]
      exact markedBefore_of_not_mem (by simp)
    · by_cases h2 : seen = all_screen_names cat
      · rw [runLoop_full h1 h2, allEvents_nil]
        exact markedBefore_of_not_mem (by simp)
      · have hscanMB := scan_marked_before env t cat 0 seen false e n hname hne
        cases hscan : scanFrom env t 0 cat seen false with
        | fatal n' s f evs =>
          rw [hscan] at hscanMB
          simp only [ScanResult.evs] at hscanMB
          rw [runLoop_fatal h1 h2 hscan, allEvents_single,
            show (⟨seen, c, f, evs⟩ : IterLog).events = evs from rfl]
          exact hscanMB
        | done s f evs =>
          rw [hscan] at hscanMB
          simp only [ScanResult.evs] at hscanMB
          cases f with
          | true =>
            rw [runLoop_found h1 h2 hscan, allEvents_shape,
              show (⟨seen, c, true, evs⟩ : IterLog).events = evs from rfl]
            exact markedBefore_append hscanMB (ih (t + 1) s 0 e n hname hne)
          | false =>
            by_cases h4 : c + 1 ≥ idle_threshold
            · rw [runLoop_idle h1 h2 hscan h4, allEvents_single,
                show (⟨seen, c, false, evs⟩ : IterLog).events = evs from rfl]
              exact hscanMB
            · rw [runLoop_noMatch h1 h2 hscan (by omega), allEvents_shape,
                show (⟨seen, c, false, evs⟩ : IterLog).events = evs from rfl]
              exact markedBefore_append hscanMB (ih (t + 1) s (c + 1) e n hname hne)

lemma loop_dismissLast (cat : List Screen) (env : Env) :
    ∀ (fuel t : Nat) (seen : Finset String) (c : Nat),
      ∀ log ∈ (runLoop cat env fuel t seen c).trace, DismissLast log.events := by
  intro fuel
  induction fuel with
  | zero =>
    intro t seen c log hlog
    rw [runLoop_zero] at hlog
    simp at hlog
  | succ fuel ih =>
    intro t seen c log hlog
    by_cases h1 : env.elapsed t > timeout_seconds
    · rw [runLoop_timeout h1] at hlog
      simp at hlog
    · by_cases h2 : seen = all_screen_names cat
      · rw [runLoop_full h1 h2] at hlog
        simp at hlog
      · have hscanDL := scan_dismissLast env t cat 0 seen false
        cases hscan : scanFrom env t 0 cat seen false with
        | fatal n s f evs =>
          rw [hscan] at hscanDL
          simp only [ScanResult.evs] at hscanDL
          rw [runLoop_fatal h1 h2 hscan] at hlog
          simp at hlog
          rw [hlog]
          exact hscanDL
        | done s f evs =>
          rw [hscan] at hscanDL
          simp only [ScanResult.evs] at hscanDL
          cases f with
          | true =>
            rw [runLoop_found h1 h2 hscan] at hlog
            rcases List.mem_cons.mp hlog with rfl | h
            · exact hscanDL
            · exact ih (t + 1) s 0 log h
          | false =>
            by_cases h4 : c + 1 ≥ idle_threshold
            · rw [runLoop_idle h1 h2 hscan h4] at hlog
              simp at hlog
              rw [hlog]
              exact hscanDL
            · rw [runLoop_noMatch h1 h2 hscan (by omega)] at hlog
              rcases List.mem_cons.mp hlog with rfl | h
              · exact hscanDL
              · exact ih (t + 1) s (c + 1) log h

lemma loop_timeout_unseen (cat : List Screen) (env : Env) :
    ∀ (fuel t : Nat) (seen : Finset String) (c : Nat) (u : Finset String),
      (runLoop cat env fuel t seen c).exit = .convergenceTimeout u →
      u = all_screen_names cat \ (runLoop cat env fuel t seen c).seen := by
  intro fuel
  induction fuel with
  | zero =>
    intro t seen c u h
    rw [runLoop_zero] at h
    simp at h
  | succ fuel ih =>
    intro t seen c u h
    by_cases h1 : env.elapsed t > timeout_seconds
    · rw [runLoop_timeout h1] at h ⊢
      simp at h
      rw [h]
    · by_cases h2 : seen = all_screen_names cat
      · rw [runLoop_full h1 h2] at h
        simp at h
      · cases hscan : scanFrom env t 0 cat seen false with
        | fatal n s f evs =>
          rw [runLoop_fatal h1 h2 hscan] at h
          simp at h
        | done s f evs =>
          cases f with
          | true =>
            rw [runLoop_found h1 h2 hscan] at h ⊢
            exact ih (t + 1) s 0 u h
          | false =>
            by_cases h4 : c + 1 ≥ idle_threshold
            · rw [runLoop_idle h1 h2 hscan h4] at h
              simp at h
            · rw [runLoop_noMatch h1 h2 hscan (by omega)] at h ⊢
              exact ih (t + 1) s (c + 1) u h

lemma loop_full_terminal (cat : List Screen) (env : Env) (fuel t c : Nat) :
    runLoop cat env (fuel + 1) t (all_screen_names cat) c =
      if env.elapsed t > timeout_seconds then
        ⟨.convergenceTimeout ∅, all_screen_names cat, []⟩
      else ⟨.fullCoverage, all_screen_names cat, []⟩ := by
  by_cases h1 : env.elapsed t > timeout_seconds
  · rw [runLoop_timeout h1, if_pos h1, Finset.sdiff_self]
  · rw [runLoop_full h1 rfl, if_neg h1]

/-- Whether the detection response of some catalog entry from index `i` on is
`visible` at iteration `t` (seen or not) — this is what `screen_found`
tracks in the source, since `screen_found = True` is assigned before the
`if screen_name in screens_seen: continue` check. -/
def anyVisibleFrom (env : Env) (t : Nat) : Nat → List Screen → Bool
  | _, [] => false
  | i, _ :: rest =>
    ((env.resp t i).detect == DetectOutcome.visible) || anyVisibleFrom env t (i + 1) rest

lemma scan_none_found (env : Env) (t : Nat) (screens : List Screen) :
    ∀ (i : Nat) (seen : Finset String) (found : Bool),
      (∀ k (hk : k < screens.length),
        (env.resp t (i + k)).detect = .notVisible ∨ (env.resp t (i + k)).detect = .timeoutErr) →
      scanFrom env t i screens seen found = .done seen found [] := by
  induction screens with
  | nil =>
    intro i seen found _
    rw [scanFrom_nil]
  | cons sc rest ih =>
    intro i seen found h
    have h0 := h 0 (by simp)
    simp only [Nat.add_zero] at h0
    have hrest : ∀ k (hk : k < rest.length),
        (env.resp t ((i + 1) + k)).detect = .notVisible ∨
        (env.resp t ((i + 1) + k)).detect = .timeoutErr := by
      intro k hk
      have heq : (i + 1) + k = i + (k + 1) := by omega
      rw [heq]
      exact h (k + 1) (by simpa using Nat.succ_lt_succ hk)
    rcases h0 with h0 | h0
    · rw [scanFrom_cons_notVisible h0]
      exact ih _ _ _ hrest
    · rw [scanFrom_cons_timeoutErr h0]
      exact ih _ _ _ hrest

lemma scan_flicker (env : Env) (t : Nat) (screens : List Screen) :
    ∀ (i : Nat) (seen : Finset String) (found : Bool),
      (∀ k (hk : k < screens.length),
        (env.resp t (i + k)).detect ≠ .otherErr ∧
        ((env.resp t (i + k)).detect = .visible → (screens.get ⟨k, hk⟩).name ∈ seen)) →
      scanFrom env t i screens seen found =
        .done seen (found || anyVisibleFrom env t i screens) [] := by
  induction screens with
  | nil =>
    intro i seen found _
    rw [scanFrom_nil]
    simp [anyVisibleFrom]
  | cons sc rest ih =>
    intro i seen found h
    have h0 := h 0 (by simp)
    simp only [Nat.add_zero] at h0
    have hrest : ∀ k (hk : k < rest.length),
        (env.resp t ((i + 1) + k)).detect ≠ .otherErr ∧
        ((env.resp t ((i + 1) + k)).detect = .visible →
          (rest.get ⟨k, hk⟩).name ∈ seen) := by
      intro k hk
      have heq : (i + 1) + k = i + (k + 1) := by omega
      rw [heq]
      exact h (k + 1) (by simpa using Nat.succ_lt_succ hk)
    cases hd : (env.resp t i).detect with
    | notVisible =>
      rw [scanFrom_cons_notVisible hd, ih _ _ _ hrest]
      have hb : (DetectOutcome.notVisible == DetectOutcome.visible) = false := rfl
      simp [anyVisibleFrom, hd, hb]
    | timeoutErr =>
      rw [scanFrom_cons_timeoutErr hd, ih _ _ _ hrest]
      have hb : (DetectOutcome.timeoutErr == DetectOutcome.visible) = false := rfl
      simp [anyVisibleFrom, hd, hb]
    | otherErr =>
      exact absurd hd h0.1
    | visible =>
      have hmem : sc.name ∈ seen := h0.2 hd
      rw [scanFrom_cons_visible_seen hd hmem, ih _ _ _ hrest]
      have hb : (DetectOutcome.visible == DetectOutcome.visible) = true := rfl
      simp [anyVisibleFrom, hd, hb]

lemma idle_run (cat : List Screen) (env : Env)
    (helapsed : ∀ t, ¬ env.elapsed t > timeout_seconds)
    (hnovis : ∀ t k (hk : k < cat.length),
      (env.resp t k).detect = .notVisible ∨ (env.resp t k).detect = .timeoutErr)
    (hne : (∅ : Finset String) ≠ all_screen_names cat) :
    ∀ (k : Nat), 1 ≤ k → ∀ (c t fuel : Nat), c + k = idle_threshold → k ≤ fuel →
      (runLoop cat env fuel t ∅ c).exit = .idleConvergence ∧
      (runLoop cat env fuel t ∅ c).seen = ∅ ∧
      (runLoop cat env fuel t ∅ c).trace.length = k := by
  intro k
  induction k with
  | zero => omega
  | succ k ih =>
    intro _ c t fuel hsum hfuel
    obtain ⟨f, rfl⟩ : ∃ f, fuel = f + 1 := ⟨fuel - 1, by omega⟩
    have hscan : scanFrom env t 0 cat ∅ false = .done ∅ false [] :=
      scan_none_found env t cat 0 ∅ false (fun j hj => by simpa using hnovis t j hj)
    cases k with
    | zero =>
      have h4 : c + 1 ≥ idle_threshold := by omega
      rw [runLoop_idle (helapsed t) hne hscan h4]
      exact ⟨rfl, rfl, rfl⟩
    | succ k' =>
      have h4 : c + 1 + 1 ≤ idle_threshold := by omega
      rw [runLoop_noMatch (helapsed t) hne hscan (by omega)]
      have hih := ih (by omega) (c + 1) (t + 1) f (by omega) (by omega)
      refine ⟨hih.1, hih.2.1, ?_⟩
      simp [hih.2.2]

/-! ### Concrete environments and payloads used by counterexamples and witnesses -/

/-- Response of a quiescent screen: not visible, every wait succeeds. -/
def okResp : EnvResp := ⟨.notVisible, .ok, .ok, .ok, .ok⟩

/-- Response of a visible screen whose whole handling succeeds. -/
def visResp : EnvResp := ⟨.visible, .ok, .ok, .ok, .ok⟩

/-- No screen is ever presented; the clock never advances. -/
def envNothing : Env := ⟨fun _ _ => okResp, fun _ => 0⟩

/-- Catalog index 1 is visible at every iteration (it keeps flickering back
after being dismissed); everything else is quiet. -/
def envFlicker : Env := ⟨fun _ i => if i = 1 then visResp else okResp, fun t => t⟩

/-- At iteration 0, catalog index 1 is visible but its button wait times
out, and catalog index 2 is visible with a fully successful handling;
nothing afterwards. -/
def envButtonTimeout : Env :=
  ⟨fun t i =>
    if t = 0 ∧ i = 1 then ⟨.visible, .ok, .timeoutErr, .ok, .ok⟩
    else if t = 0 ∧ i = 2 then visResp
    else okResp,
   fun t => t⟩

/-- Every screen is always visible and handled successfully, but the clock
jumps past the 300s budget right after iteration 8 (handling waits can take
tens of seconds each). -/
def envLateClock : Env := ⟨fun _ _ => visResp, fun t => if t ≤ 8 then t else 301⟩

/-- The elapsed clock is already past the budget at the first iteration. -/
def envTimeoutNow : Env := ⟨fun _ _ => okResp, fun _ => 301⟩

/-- Every screen is always visible and every wait succeeds, with a 1s/iteration clock. -/
def envAllOk : Env := ⟨fun _ _ => visResp, fun t => t⟩

/-- Catalog index 0's detection query raises `PlaywrightTimeoutError`. -/
def envDetectTimeout : Env :=
  ⟨fun _ i => if i = 0 then ⟨.timeoutErr, .ok, .ok, .ok, .ok⟩ else okResp, fun t => t⟩

/-- Catalog index 0 is visible and its custom action raises a non-timeout
exception. -/
def envActFatal : Env :=
  ⟨fun _ i => if i = 0 then ⟨.visible, .otherErr, .ok, .ok, .ok⟩ else okResp, fun t => t⟩

/-- Placeholder screen for out-of-range list reads in closed statements. -/
def defaultScreen : Screen := ⟨"", "", false, none⟩

/-- Placeholder iteration log for out-of-range list reads in closed statements. -/
def defaultLog : IterLog := ⟨∅, 0, false, []⟩

/-! ### Claim theorems -/

/-- C1: in the post-wizard loop, for every catalog screen and every
execution (any environment, any fuel), a screen's custom action runs at most
once and its dismiss control is clicked at most once per loop invocation, and
in the event trace the `mark` (seen-set insertion) of a name occurs strictly
before any `act` or `click` of that name: every prefix of the trace
containing the `act`/`click` already contains the `mark`. -/
theorem C1_mark_before_act_at_most_once (env : Env) (fuel : Nat) (n : String) :
    (handle_post_wizard env fuel).allEvents.count (Event.act n) ≤ 1 ∧
    (handle_post_wizard env fuel).allEvents.count (Event.click n) ≤ 1 ∧
    MarkedBefore (Event.act n) n (handle_post_wizard env fuel).allEvents ∧
    MarkedBefore (Event.click n) n (handle_post_wizard env fuel).allEvents := by
  refine ⟨?_, ?_, ?_, ?_⟩
  · have h := loop_count wizard_screens env fuel 0 ∅ 0 (Event.act n)
    simpa [handle_post_wizard, Event.name] using h
  · have h := loop_count wizard_screens env fuel 0 ∅ 0 (Event.click n)
    simpa [handle_post_wizard, Event.name] using h
  · exact loop_marked_before wizard_screens env fuel 0 ∅ 0 (Event.act n) n rfl (by simp)
  · exact loop_marked_before wizard_screens env fuel 0 ∅ 0 (Event.click n) n rfl (by simp)

/-- C8: across one loop invocation the seen-set starts empty, forms a
`⊆`-chain over the iterations (monotone growth, never shrinks), stays inside
the catalog's name set, each name is marked (inserted) at most once, and once
it equals the full catalog name set the loop performs no further iteration:
the very next iteration returns immediately (full coverage within the
budget, timeout otherwise). -/
theorem C8_seen_set_invariants (env : Env) (fuel : Nat) :
    ((handle_post_wizard env fuel).trace.map IterLog.seenBefore ++
      [(handle_post_wizard env fuel).seen]).head? = some ∅ ∧
    List.Chain' (· ⊆ ·) ((handle_post_wizard env fuel).trace.map IterLog.seenBefore ++
      [(handle_post_wizard env fuel).seen]) ∧
    (handle_post_wizard env fuel).seen ⊆ all_screen_names wizard_screens ∧
    (∀ n : String, (handle_post_wizard env fuel).allEvents.count (Event.mark n) ≤ 1) ∧
    (∀ (f t c : Nat),
      runLoop wizard_screens env (f + 1) t (all_screen_names wizard_screens) c =
        if env.elapsed t > timeout_seconds then
          ⟨.convergenceTimeout ∅, all_screen_names wizard_screens, []⟩
        else ⟨.fullCoverage, all_screen_names wizard_screens, []⟩) := by
  refine ⟨?_, ?_, ?_, ?_, ?_⟩
  · exact loop_head wizard_screens env fuel 0 ∅ 0
  · exact loop_chain wizard_screens env fuel 0 ∅ 0
  · have h := loop_seen_subset wizard_screens env fuel 0 ∅ 0
    simpa [handle_post_wizard] using h
  · intro n
    have h := loop_count wizard_screens env fuel 0 ∅ 0 (Event.mark n)
    simpa [handle_post_wizard, Event.name] using h
  · intro f t c
    exact loop_full_terminal wizard_screens env f t c

/-- C9: in every executed iteration of the loop at most one screen is fully
dismissed, and once a screen's handling completes (the `dismissed` event),
nothing further happens in that iteration's scan: the `dismissed` event is
the last event of the iteration. -/
theorem C9_one_dismissal_per_iteration (env : Env) (fuel : Nat) (log : IterLog)
    (hlog : log ∈ (handle_post_wizard env fuel).trace) :
    log.events.countP isDismiss ≤ 1 ∧
    (∀ pre (n : String) suf, log.events = pre ++ Event.dismissed n :: suf → suf = []) := by
  have hDL : DismissLast log.events :=
    loop_dismissLast wizard_screens env fuel 0 ∅ 0 log (by simpa [handle_post_wizard] using hlog)
  have hsuf : ∀ pre (n : String) suf, log.events = pre ++ Event.dismissed n :: suf → suf = [] :=
    fun _ _ _ he => dismissLast_suffix_nil hDL he
  exact ⟨countP_dismiss_le_one hsuf, hsuf⟩

theorem C9_witness :
    ((handle_post_wizard envAllOk 12).trace.getD 0 defaultLog).events.countP isDismiss ≤ 1 ∧
    Event.dismissed "Update Options" ∈
      ((handle_post_wizard envAllOk 12).trace.getD 0 defaultLog).events := by
  have hmem : (handle_post_wizard envAllOk 12).trace.getD 0 defaultLog ∈
      (handle_post_wizard envAllOk 12).trace := by decide
  exact ⟨(C9_one_dismissal_per_iteration envAllOk 12 _ hmem).1, by decide⟩

/-- C2 counterexample: at iteration 0 of `envButtonTimeout`, catalog entry 1
("Synology Account") is matched, defines a dismiss button, and the bounded
wait for that button times out — yet the loop does not fail: the timeout is
caught, the later entry "User Experience" is still marked (in the very same
iteration), and the run ends via idle convergence rather than a fatal
error, contradicting the claim. -/
theorem C2_counterexample :
    (wizard_screens.getD 1 defaultScreen).name = "Synology Account" ∧
    (wizard_screens.getD 1 defaultScreen).button.isSome = true ∧
    (envButtonTimeout.resp 0 1).detect = DetectOutcome.visible ∧
    (envButtonTimeout.resp 0 1).button = StepOutcome.timeoutErr ∧
    Event.mark "Synology Account" ∈
      ((handle_post_wizard envButtonTimeout 40).trace.getD 0 defaultLog).events ∧
    Event.mark "User Experience" ∈
      ((handle_post_wizard envButtonTimeout 40).trace.getD 0 defaultLog).events ∧
    "User Experience" ∈ (handle_post_wizard envButtonTimeout 40).seen ∧
    (handle_post_wizard envButtonTimeout 40).exit = ExitKind.idleConvergence := by
  decide

/-- C2 as amended: when a matched (visible, unseen) screen with a dismiss
button and no custom action hits the bounded button wait timeout, the
`PlaywrightTimeoutError` is caught, not fatal: the screen's name stays in
the seen-set and the catalog scan continues with the remaining entries in
the same iteration (with `screen_found` set), so later screens can still be
marked; the loop only aborts on non-timeout errors. -/
theorem C2_amended_button_timeout_swallowed (env : Env) (t i : Nat) (sc : Screen)
    (rest : List Screen) (seen : Finset String) (found : Bool)
    (hd : (env.resp t i).detect = .visible) (hseen : sc.name ∉ seen)
    (hact : sc.action = false) (hbtn : sc.button.isSome = true)
    (hto : (env.resp t i).button = .timeoutErr) :
    scanFrom env t i (sc :: rest) seen found =
      (scanFrom env t (i + 1) rest (insert sc.name seen) true).addEvents
        [Event.mark sc.name] := by
  have hh : handle sc (env.resp t i) = .timedOut [] := by
    obtain ⟨b, hb⟩ := Option.isSome_iff_exists.mp hbtn
    simp [handle, hact, buttonStage, hb, hto]
  exact scanFrom_cons_visible_timedOut hd hseen hh

theorem C2_amended_witness :
    scanFrom envButtonTimeout 0 1 [wizard_screens.getD 1 defaultScreen] ∅ false =
      (scanFrom envButtonTimeout 0 2 [] (insert "Synology Account" ∅) true).addEvents
        [Event.mark "Synology Account"] := by
  have h := C2_amended_button_timeout_swallowed envButtonTimeout 0 1
    (wizard_screens.getD 1 defaultScreen) [] ∅ false
    (by decide) (by decide) (by decide) (by decide) (by decide)
  exact h

/-- Modelled from the claim's wording (for comparison with the code, not
from the source): a catalog entry "matched" at iteration `t` when its
detection predicate is visible AND its name is not yet in the seen-set. -/
def specMatchedFrom (env : Env) (t : Nat) : Nat → List Screen → Finset String → Bool
  | _, [], _ => false
  | i, sc :: rest, seen =>
    (((env.resp t i).detect == DetectOutcome.visible) && decide (sc.name ∉ seen)) ||
      specMatchedFrom env t (i + 1) rest seen

/-- C3 counterexample: under `envFlicker`, iteration 0 dismisses
"Synology Account"; at iteration 1 the only visible entry is that
already-seen screen, so by the claim's definition no catalog entry matched
and the idle counter should increment to 1 — but the code sets
`screen_found` before the seen-set check, so the iteration counts as found
and the counter at the top of iteration 2 is 0, not 1. -/
theorem C3_counterexample :
    ((handle_post_wizard envFlicker 5).trace.getD 1 defaultLog).seenBefore =
      insert "Synology Account" ∅ ∧
    specMatchedFrom envFlicker 1 0 wizard_screens
      ((handle_post_wizard envFlicker 5).trace.getD 1 defaultLog).seenBefore = false ∧
    ((handle_post_wizard envFlicker 5).trace.getD 1 defaultLog).consecBefore = 0 ∧
    ((handle_post_wizard envFlicker 5).trace.getD 1 defaultLog).found = true ∧
    ((handle_post_wizard envFlicker 5).trace.getD 2 defaultLog).consecBefore = 0 := by
  decide

/-- C3 as amended: the idle counter is incremented exactly in the iterations
where no catalog entry's detection predicate evaluated visible at all
(`screen_found` is set before the seen-set check, so a visible
already-dismissed screen resets the counter to 0 rather than incrementing);
at 30 consecutive empty iterations the loop terminates successfully via idle
convergence; and if zero screens are ever presented the loop exits via the
idle-convergence path with an empty seen-set after exactly 30 iterations,
never via the full-coverage path. -/
theorem C3_amended_idle_counter :
    (∀ (cat : List Screen) (env : Env) (fuel t c : Nat) (seen : Finset String),
      ¬ env.elapsed t > timeout_seconds → seen ≠ all_screen_names cat →
      (∀ k, k < cat.length →
        (env.resp t k).detect = .notVisible ∨ (env.resp t k).detect = .timeoutErr) →
      c + 1 < idle_threshold →
      runLoop cat env (fuel + 1) t seen c =
        ⟨(runLoop cat env fuel (t + 1) seen (c + 1)).exit,
         (runLoop cat env fuel (t + 1) seen (c + 1)).seen,
         ⟨seen, c, false, []⟩ :: (runLoop cat env fuel (t + 1) seen (c + 1)).trace⟩) ∧
    (∀ (cat : List Screen) (env : Env) (fuel t c : Nat) (seen : Finset String),
      ¬ env.elapsed t > timeout_seconds → seen ≠ all_screen_names cat →
      (∀ k, k < cat.length →
        (env.resp t k).detect = .notVisible ∨ (env.resp t k).detect = .timeoutErr) →
      c + 1 ≥ idle_threshold →
      runLoop cat env (fuel + 1) t seen c = ⟨.idleConvergence, seen, [⟨seen, c, false, []⟩]⟩) ∧
    (∀ (cat : List Screen) (env : Env) (fuel t c : Nat) (seen : Finset String),
      ¬ env.elapsed t > timeout_seconds → seen ≠ all_screen_names cat →
      (∀ k (hk : k < cat.length),
        (env.resp t k).detect ≠ .otherErr ∧
        ((env.resp t k).detect = .visible → (cat.get ⟨k, hk⟩).name ∈ seen)) →
      anyVisibleFrom env t 0 cat = true →
      runLoop cat env (fuel + 1) t seen c =
        ⟨(runLoop cat env fuel (t + 1) seen 0).exit,
         (runLoop cat env fuel (t + 1) seen 0).seen,
         ⟨seen, c, true, []⟩ :: (runLoop cat env fuel (t + 1) seen 0).trace⟩) ∧
    (∀ (env : Env) (fuel : Nat),
      (∀ t, ¬ env.elapsed t > timeout_seconds) →
      (∀ t k, k < wizard_screens.length →
        (env.resp t k).detect = .notVisible ∨ (env.resp t k).detect = .timeoutErr) →
      idle_threshold ≤ fuel →
      (handle_post_wizard env fuel).exit = .idleConvergence ∧
      (handle_post_wizard env fuel).seen = ∅ ∧
      (handle_post_wizard env fuel).trace.length = idle_threshold) := by
  refine ⟨?_, ?_, ?_, ?_⟩
  · intro cat env fuel t c seen h1 h2 hvis h4
    have hscan : scanFrom env t 0 cat seen false = .done seen false [] :=
      scan_none_found env t cat 0 seen false
        (fun k hk => by rw [Nat.zero_add]; exact hvis k hk)
    exact runLoop_noMatch h1 h2 hscan h4
  · intro cat env fuel t c seen h1 h2 hvis h4
    have hscan : scanFrom env t 0 cat seen false = .done seen false [] :=
      scan_none_found env t cat 0 seen false
        (fun k hk => by rw [Nat.zero_add]; exact hvis k hk)
    exact runLoop_idle h1 h2 hscan h4
  · intro cat env fuel t c seen h1 h2 hvis hany
    have hscan : scanFrom env t 0 cat seen false =
        .done seen (false || anyVisibleFrom env t 0 cat) [] :=
      scan_flicker env t cat 0 seen false
        (fun k hk => by
          have := hvis k hk
          rwa [Nat.zero_add])
    rw [hany] at hscan
    simp only [Bool.false_or] at hscan
    exact runLoop_found h1 h2 hscan
  · intro env fuel h1 hvis hfuel
    have h := idle_run wizard_screens env h1 (fun t k hk => hvis t k hk)
      (by decide) idle_threshold (by simp [idle_threshold]) 0 0 fuel (by simp) hfuel
    exact h

theorem C3_amended_witness :
    (runLoop wizard_screens envNothing 6 0 ∅ 0 =
      ⟨(runLoop wizard_screens envNothing 5 1 ∅ 1).exit,
       (runLoop wizard_screens envNothing 5 1 ∅ 1).seen,
       ⟨∅, 0, false, []⟩ :: (runLoop wizard_screens envNothing 5 1 ∅ 1).trace⟩) ∧
    (runLoop wizard_screens envNothing 2 0 ∅ 29 =
      ⟨.idleConvergence, ∅, [⟨∅, 29, false, []⟩]⟩) ∧
    (runLoop wizard_screens envFlicker 3 1 (insert "Synology Account" ∅) 7 =
      ⟨(runLoop wizard_screens envFlicker 2 2 (insert "Synology Account" ∅) 0).exit,
       (runLoop wizard_screens envFlicker 2 2 (insert "Synology Account" ∅) 0).seen,
       ⟨insert "Synology Account" ∅, 7, true, []⟩ ::
         (runLoop wizard_screens envFlicker 2 2 (insert "Synology Account" ∅) 0).trace⟩) ∧
    ((handle_post_wizard envNothing 30).exit = .idleConvergence ∧
     (handle_post_wizard envNothing 30).seen = ∅ ∧
     (handle_post_wizard envNothing 30).trace.length = idle_threshold) := by
  refine ⟨?_, ?_, ?_, ?_⟩
  · exact C3_amended_idle_counter.1 wizard_screens envNothing 5 0 0 ∅
      (by decide) (by decide) (by decide) (by decide)
  · exact C3_amended_idle_counter.2.1 wizard_screens envNothing 1 0 29 ∅
      (by decide) (by decide) (by decide) (by decide)
  · exact C3_amended_idle_counter.2.2.1 wizard_screens envFlicker 2 1 7
      (insert "Synology Account" ∅) (by decide) (by decide) (by decide) (by decide)
  · exact C3_amended_idle_counter.2.2.2 envNothing 30
      (fun _ => of_decide_eq_false rfl) (fun _ _ _ => Or.inl rfl) (by decide)

/-- C4 counterexample: under `envLateClock` all nine screens are presented
and the last one is dismissed in iteration 8 while the elapsed clock is
still within the budget; at the top of iteration 9 the clock has passed
300s, and because the code checks the absolute timeout before the
full-coverage check, the run fails with the timeout error (with an empty
unseen diagnostic) instead of exiting via the full-coverage path, as the
claim would require. -/
theorem C4_counterexample :
    (handle_post_wizard envLateClock 12).seen = all_screen_names wizard_screens ∧
    Event.dismissed "Notification Setup Reminder" ∈
      ((handle_post_wizard envLateClock 12).trace.getD 8 defaultLog).events ∧
    envLateClock.elapsed 8 ≤ timeout_seconds ∧
    (handle_post_wizard envLateClock 12).exit = ExitKind.convergenceTimeout ∅ := by
  decide

/-- C4 as amended: at the top of each iteration the loop checks the absolute
timeout first and full coverage second.  Hence once the seen-set equals the
catalog name set, the loop performs no further iteration: it exits via the
full-coverage path immediately (regardless of the idle counter) when the
elapsed clock is within the 300s budget, but a run in which the last screen
was just dismissed is still failed by the timeout check (with empty unseen
diagnostic) when the budget was exceeded by the top of the next iteration. -/
theorem C4_amended_timeout_checked_first (cat : List Screen) (env : Env) (fuel t c : Nat) :
    runLoop cat env (fuel + 1) t (all_screen_names cat) c =
      if env.elapsed t > timeout_seconds then
        ⟨.convergenceTimeout ∅, all_screen_names cat, []⟩
      else ⟨.fullCoverage, all_screen_names cat, []⟩ :=
  loop_full_terminal cat env fuel t c

/-- C5: whenever the loop fails with the convergence-timeout error, the
diagnostic's unseen set is exactly the catalog name set minus the final
seen-set: seen and unseen partition the catalog names (union is the whole
catalog, they are disjoint, and their cardinalities add up to N). -/
theorem C5_timeout_diagnostic (env : Env) (fuel : Nat) (u : Finset String)
    (h : (handle_post_wizard env fuel).exit = .convergenceTimeout u) :
    u = all_screen_names wizard_screens \ (handle_post_wizard env fuel).seen ∧
    (handle_post_wizard env fuel).seen ∪ u = all_screen_names wizard_screens ∧
    Disjoint (handle_post_wizard env fuel).seen u ∧
    (handle_post_wizard env fuel).seen.card + u.card =
      (all_screen_names wizard_screens).card := by
  have hu : u = all_screen_names wizard_screens \ (handle_post_wizard env fuel).seen := by
    have := loop_timeout_unseen wizard_screens env fuel 0 ∅ 0 u
    exact this h
  have hsub : (handle_post_wizard env fuel).seen ⊆ all_screen_names wizard_screens := by
    have h2 := loop_seen_subset wizard_screens env fuel 0 ∅ 0
    simpa [handle_post_wizard] using h2
  refine ⟨hu, ?_, ?_, ?_⟩
  · rw [hu]
    exact Finset.union_sdiff_of_subset hsub
  · rw [hu]
    exact Finset.disjoint_sdiff
  · rw [hu, Finset.card_sdiff hsub]
    have := Finset.card_le_card hsub
    omega

theorem C5_witness :
    (handle_post_wizard envTimeoutNow 1).exit =
      ExitKind.convergenceTimeout (all_screen_names wizard_screens \ ∅) ∧
    all_screen_names wizard_screens \ ∅ =
      all_screen_names wizard_screens \ (handle_post_wizard envTimeoutNow 1).seen ∧
    (handle_post_wizard envTimeoutNow 1).seen.card +
      (all_screen_names wizard_screens \ ∅).card =
        (all_screen_names wizard_screens).card := by
  have h := C5_timeout_diagnostic envTimeoutNow 1 (all_screen_names wizard_screens \ ∅)
    (by decide)
  exact ⟨by decide, h.1, h.2.2.2⟩

/-- C6: a detection query that raises `PlaywrightTimeoutError` for one
catalog entry is swallowed and behaves exactly like "not currently visible"
(the scan equation is the same one as for a not-visible entry and the scan
just moves on to the next entry, with no failure); whereas a non-timeout
error — from a detection query or from any stage of handling a matched
screen — aborts the scan at that entry and makes the loop exit immediately
with a fatal error naming that screen. -/
theorem C6_error_policy :
    (∀ (env : Env) (t i : Nat) (sc : Screen) (rest : List Screen)
        (seen : Finset String) (found : Bool),
      (env.resp t i).detect = .timeoutErr →
      scanFrom env t i (sc :: rest) seen found = scanFrom env t (i + 1) rest seen found) ∧
    (∀ (env : Env) (t i : Nat) (sc : Screen) (rest : List Screen)
        (seen : Finset String) (found : Bool),
      (env.resp t i).detect = .notVisible →
      scanFrom env t i (sc :: rest) seen found = scanFrom env t (i + 1) rest seen found) ∧
    (∀ (env : Env) (t i : Nat) (sc : Screen) (rest : List Screen)
        (seen : Finset String) (found : Bool) (evs : List Event),
      (env.resp t i).detect = .visible → sc.name ∉ seen →
      handle sc (env.resp t i) = .fatal evs →
      scanFrom env t i (sc :: rest) seen found =
        .fatal sc.name (insert sc.name seen) true (Event.mark sc.name :: evs)) ∧
    (∀ (cat : List Screen) (env : Env) (fuel t c : Nat) (seen s : Finset String)
        (n : String) (f : Bool) (evs : List Event),
      ¬ env.elapsed t > timeout_seconds → seen ≠ all_screen_names cat →
      scanFrom env t 0 cat seen false = .fatal n s f evs →
      runLoop cat env (fuel + 1) t seen c = ⟨.fatalError n, s, [⟨seen, c, f, evs⟩]⟩) := by
  refine ⟨?_, ?_, ?_, ?_⟩
  · intro env t i sc rest seen found hd
    exact scanFrom_cons_timeoutErr hd
  · intro env t i sc rest seen found hd
    exact scanFrom_cons_notVisible hd
  · intro env t i sc rest seen found evs hd hseen hh
    exact scanFrom_cons_visible_fatal hd hseen hh
  · intro cat env fuel t c seen s n f evs h1 h2 hscan
    exact runLoop_fatal h1 h2 hscan

theorem C6_witness :
    (scanFrom envDetectTimeout 0 0
        ((wizard_screens.getD 0 defaultScreen) :: wizard_screens.drop 1) ∅ false =
      scanFrom envDetectTimeout 0 1 (wizard_screens.drop 1) ∅ false) ∧
    (scanFrom envActFatal 0 0
        ((wizard_screens.getD 0 defaultScreen) :: wizard_screens.drop 1) ∅ false =
      .fatal (wizard_screens.getD 0 defaultScreen).name
        (insert (wizard_screens.getD 0 defaultScreen).name ∅) true
        (Event.mark (wizard_screens.getD 0 defaultScreen).name ::
          [Event.act "Update Options"])) ∧
    (runLoop wizard_screens envActFatal 1 0 ∅ 0 =
      ⟨.fatalError "Update Options", insert "Update Options" ∅,
       [⟨∅, 0, true, [Event.mark "Update Options", Event.act "Update Options"]⟩]⟩) := by
  refine ⟨?_, ?_, ?_⟩
  · exact C6_error_policy.1 envDetectTimeout 0 0 (wizard_screens.getD 0 defaultScreen)
      (wizard_screens.drop 1) ∅ false (by decide)
  · exact C6_error_policy.2.2.1 envActFatal 0 0 (wizard_screens.getD 0 defaultScreen)
      (wizard_screens.drop 1) ∅ false [Event.act "Update Options"]
      (by decide) (by decide) (by decide)
  · exact C6_error_policy.2.2.2 wizard_screens envActFatal 0 0 0 ∅
      (insert "Update Options" ∅) "Update Options" true
      [Event.mark "Update Options", Event.act "Update Options"]
      (by decide) (by decide) (by decide)

/-! ### Scraper claims -/

/-- A payload matching the spec's fixture: first series after
`all_versions` is `7.2`, whose first entry is `7.2.2-72806 Update 4`. -/
def payloadExample : ApiPayload :=
  ⟨[⟨"all_versions"⟩, ⟨"7.2"⟩],
   [("7.2", [⟨"7.2.2-72806 Update 4"⟩, ⟨"7.2.2-72806"⟩])]⟩

/-- A payload whose first non-`all_versions` series has the empty string as
its label, with the right version string as its first entry. -/
def payloadEmptySeries : ApiPayload :=
  ⟨[⟨""⟩], [("", [⟨"7.2.2-72806 Update 4"⟩])]⟩

/-- C7 counterexample: the claim quantifies over every payload whose first
non-`all_versions` series' first entry is `7.2.2-72806 Update 4`; for the
payload whose series label is the empty string, the scraper's
`if not latest_series` truthiness check treats the selected label as
missing and returns nothing — exit code 1 and no JSON on stdout — instead
of the claimed output. -/
theorem C7_counterexample :
    findLatestSeries payloadEmptySeries.verList = some "" ∧
    payloadEmptySeries.versions.lookup "" = some [⟨"7.2.2-72806 Update 4"⟩] ∧
    scrape_dsm_version payloadEmptySeries = none ∧
    (scrape_main ⟨false, false⟩ false payloadEmptySeries).stdout = none ∧
    (scrape_main ⟨false, false⟩ false payloadEmptySeries).exitCode = 1 := by
  decide

/-- C7 as amended: for any payload whose first non-`all_versions` series has
a non-empty label, is present in the versions dict with a non-empty entry
list, and whose first entry's version string is `7.2.2-72806 Update 4`, the
scraper extracts version `7.2.2` and build `72806`, and a default run (no
flags) prints to standard output exactly the two-space-indented JSON object
with `version`, `build` and `full_version` fields in that order. -/
theorem C7_amended_version_extraction (p : ApiPayload) (s : String) (entry : VerEntry)
    (rest : List VerEntry) (gh : Bool)
    (hseries : findLatestSeries p.verList = some s) (hs : s ≠ "")
    (hlookup : p.versions.lookup s = some (entry :: rest))
    (hver : entry.version = "7.2.2-72806 Update 4") :
    scrape_dsm_version p = some ⟨"7.2.2", "72806"⟩ ∧
    (scrape_main ⟨false, false⟩ gh p).stdout = some (jsonOutput "7.2.2" "72806") ∧
    jsonOutput "7.2.2" "72806" =
      "\x7b\n  \"version\": \"7.2.2\",\n  \"build\": \"72806\",\n  \"full_version\": \"7.2.2-72806\"\n\x7d" := by
  have hre : reSearchVersion ("7.2.2-72806 Update 4" : String).data =
      some ("7.2.2", "72806") := by decide
  have hscrape : scrape_dsm_version p = some ⟨"7.2.2", "72806"⟩ := by
    simp [scrape_dsm_version, hseries, hs, hlookup, hver, hre]
  refine ⟨hscrape, ?_, rfl⟩
  simp [scrape_main, hscrape]

theorem C7_amended_witness :
    scrape_dsm_version payloadExample = some ⟨"7.2.2", "72806"⟩ ∧
    (scrape_main ⟨false, false⟩ false payloadExample).stdout =
      some (jsonOutput "7.2.2" "72806") := by
  have h := C7_amended_version_extraction payloadExample "7.2"
    ⟨"7.2.2-72806 Update 4"⟩ [⟨"7.2.2-72806"⟩] false
    (by decide) (by decide) (by decide) (by decide)
  exact ⟨h.1, h.2.1⟩

/-- C10: on a successful scrape, `main` prints the JSON object to standard
output exactly when `--json` was given or `--update-file` was absent
(`if args.json or not args.update_file`); in particular a run with
`--update-file` alone writes the shell-variable file and prints no JSON. -/
theorem C10_stdout_condition (args : ScrapeArgs) (gh : Bool) (p : ApiPayload)
    (r : DsmVersion) (h : scrape_dsm_version p = some r) :
    ((scrape_main args gh p).stdout = some (jsonOutput r.version r.build) ↔
      (args.json = true ∨ args.update_file = false)) ∧
    (args.update_file = true → args.json = false →
      (scrape_main args gh p).stdout = none ∧
      (scrape_main args gh p).versionFile = some (versionFileContent r.version r.build)) := by
  cases hj : args.json <;> cases hu : args.update_file <;>
    simp [scrape_main, h, hj, hu]

theorem C10_witness :
    (scrape_main ⟨true, false⟩ false payloadExample).stdout = none ∧
    (scrape_main ⟨true, false⟩ false payloadExample).versionFile =
      some (versionFileContent "7.2.2" "72806") := by
  have h := C10_stdout_condition ⟨true, false⟩ false payloadExample
    ⟨"7.2.2", "72806"⟩ (by decide)
  exact h.2 rfl rfl
